import Mathlib

/-!
# Verification of the meshtopo forwarding pipeline

Shallow embedding of the meshtopo gateway (Python) core:
* `src/src/caltopo_reporter.py` — the remote reporter (retry loop, destination
  fan-out, identifier and base-URL validation),
* `src/src/gateway_app.py` — the message router, identity resolver and the
  position / nodeinfo handlers together with their statistics and
  persistence side effects,
* `src/config/config.py` — static node configuration lookups,
* `src/src/persistent_dict.py` — the JSON-valued durable key-value store.

Machine integers do not occur on the modelled paths (Python ints are
unbounded); latitudes/longitudes are modelled as exact rationals where the
source divides by `1e7`.  Network behaviour is modelled by an oracle
assigning an `HttpOutcome` to every attempt number.
-/

namespace Meshtopo

/-! ## Remote reporter (`caltopo_reporter.py`)

`_make_api_request` performs up to `max_retries + 1 = 4` HTTP GET attempts.
Each attempt either yields a response with some status code, raises a
connection/timeout error (retryable), or raises some other exception
(fatal).  The oracle `r : Nat → HttpOutcome` gives the outcome of attempt
`i` (0-based). -/

/-- Outcome of one `client.get` attempt in `_make_api_request`. -/
inductive HttpOutcome where
  /-- the request returned a response with the given HTTP status code -/
  | status (code : Nat)
  /-- `httpx.ConnectError` or `httpx.TimeoutException` was raised (retryable) -/
  | netError
  /-- any other exception was raised (fatal for this delivery) -/
  | otherError
deriving DecidableEq

/-- `response.status_code == 200` — the only branch `_make_api_request`
treats as success (source line `if response.status_code == 200`). -/
def outcomeSuccess : HttpOutcome → Bool
  | .status c => c == 200
  | .netError => false
  | .otherError => false

/-- Retryable outcomes: `500 <= status < 600 or status == 429`, or a
connection/timeout error (source `elif 500 <= response.status_code < 600
or response.status_code == 429` and the `ConnectError/TimeoutException`
handler). -/
def outcomeRetryable : HttpOutcome → Bool
  | .status c => (decide (500 ≤ c) && decide (c < 600)) || c == 429
  | .netError => true
  | .otherError => false

/-- An outcome that is a 5xx response (used to state the retry-budget
claim). -/
def outcome5xx : HttpOutcome → Bool
  | .status c => decide (500 ≤ c) && decide (c < 600)
  | _ => false

/-- An outcome that is any HTTP 2xx response (used to state the claims
that speak of "HTTP 2xx"). -/
def outcome2xx : HttpOutcome → Bool
  | .status c => decide (200 ≤ c) && decide (c < 300)
  | _ => false

/-- `max_retries = 3` in `_make_api_request`. -/
def maxRetries : Nat := 3

/-- The `for attempt in range(max_retries + 1)` loop of
`_make_api_request`, with `fuel` the number of loop iterations still
available and `a` the current attempt number: success returns `True`,
a retryable outcome falls through to the next iteration, any other
outcome returns `False`; falling off the loop returns `False`. -/
def makeApiRequestAux (r : Nat → HttpOutcome) : Nat → Nat → Bool
  | 0, _ => false
  | fuel + 1, a =>
    if outcomeSuccess (r a) then true
    else if outcomeRetryable (r a) then makeApiRequestAux r fuel (a + 1)
    else false

/-- `CalTopoReporter._make_api_request` (result only): `True` iff some
attempt within the budget returns HTTP 200. -/
def makeApiRequest (r : Nat → HttpOutcome) : Bool :=
  makeApiRequestAux r (maxRetries + 1) 0

/-- Number of `client.get` calls `_make_api_request` performs against the
oracle `r` (each loop iteration performs exactly one call). -/
def apiRequestAttemptsAux (r : Nat → HttpOutcome) : Nat → Nat → Nat
  | 0, _ => 0
  | fuel + 1, a =>
    1 + (if outcomeSuccess (r a) then 0
         else if outcomeRetryable (r a) then apiRequestAttemptsAux r fuel (a + 1)
         else 0)

/-- Total number of HTTP attempts a single delivery performs. -/
def apiRequestAttempts (r : Nat → HttpOutcome) : Nat :=
  apiRequestAttemptsAux r (maxRetries + 1) 0

/-- `[a-zA-Z0-9_]` -/
def isWordChar (c : Char) : Bool :=
  (decide ('a' ≤ c) && decide (c ≤ 'z')) ||
  (decide ('A' ≤ c) && decide (c ≤ 'Z')) ||
  (decide ('0' ≤ c) && decide (c ≤ '9')) || c == '_'

/-- `CalTopoReporter._is_valid_caltopo_identifier`: the identifier must
match `^[a-zA-Z0-9_]+$`. -/
def isValidCaltopoIdentifier (s : String) : Bool :=
  !(s.data.isEmpty) && s.data.all isWordChar

/-- `CalTopoReporter._send_to_connect_key` / `_send_to_group` (result
only): an identifier failing validation is rejected locally without any
network call; otherwise the request loop runs. -/
def sendToDestination (ident : String) (r : Nat → HttpOutcome) : Bool :=
  if !isValidCaltopoIdentifier ident then false
  else makeApiRequest r

/-- `CalTopoReporter.send_position_update` (result only): builds one task
per configured destination (`connect_key` endpoint and/or `group`
endpoint), returns `False` when no destination is configured, otherwise
`True` iff at least one task returned `True`. `ckR`/`gR` are the network
oracles for the two destinations. -/
def sendPositionUpdate (hasConnectKey : Bool) (connectKey : String)
    (hasGroup : Bool) (groupId : String)
    (ckR gR : Nat → HttpOutcome) : Bool :=
  let tasks : List Bool :=
    (if hasConnectKey then [sendToDestination connectKey ckR] else []) ++
    (if hasGroup then [sendToDestination groupId gR] else [])
  if tasks.isEmpty then false
  else tasks.any id

/-- Written from the claim's words: the destination "returns an HTTP 2xx
response within its retry budget" — some attempt `i < 4` yields a 2xx
response and all earlier attempts were retryable (so attempt `i` is
actually reached), with a valid identifier (an invalid identifier makes
no network call at all). -/
def destSucceeds2xxWithinBudget (ident : String) (r : Nat → HttpOutcome) : Bool :=
  isValidCaltopoIdentifier ident &&
    (List.range (maxRetries + 1)).any fun i =>
      outcome2xx (r i) && (List.range i).all fun j => outcomeRetryable (r j)

/-- The same predicate with HTTP 200 (what the code actually tests) in
place of 2xx. -/
def destSucceeds200WithinBudget (ident : String) (r : Nat → HttpOutcome) : Bool :=
  isValidCaltopoIdentifier ident &&
    (List.range (maxRetries + 1)).any fun i =>
      outcomeSuccess (r i) && (List.range i).all fun j => outcomeRetryable (r j)

/-! ## Base URL validation (`caltopo_reporter.py`, module level)

`_matches_url_pattern` converts a pattern into an anchored regex after
replacing `*` with `.*`; `globMatch` is that matcher on character lists.
The class body then validates `CALTOPO_URL`: with a non-empty explicit
allow-list the URL must match some pattern, otherwise the parsed hostname
must be `caltopo.com` or end with `.caltopo.com`; failure raises
`ValueError` (modelled as the validator returning `false`). -/

/-- Wildcard matcher: `*` matches any sequence of characters, every other
pattern character matches itself (model of
`re.match("^" + re.escape(pattern).replace("\\*", ".*") + "$", url)`).
Structural on explicit fuel; every recursive call shrinks
`pattern.length + input.length`, so `globMatch` below always supplies
enough. -/
def globMatchAux : Nat → List Char → List Char → Bool
  | 0, _, _ => false
  | fuel + 1, pat, str =>
    match pat, str with
    | [], [] => true
    | '*' :: ps, [] => globMatchAux fuel ps []
    | _ :: _, [] => false
    | [], _ :: _ => false
    | '*' :: ps, c :: cs => globMatchAux fuel ps (c :: cs) || globMatchAux fuel ('*' :: ps) cs
    | p :: ps, c :: cs => p == c && globMatchAux fuel ps cs

def globMatch (pat str : List Char) : Bool :=
  globMatchAux (pat.length + str.length + 1) pat str

/-- `_matches_url_pattern(url, pattern)`. -/
def matchesUrlPattern (url pat : String) : Bool :=
  globMatch pat.data url.data

/-- Python `str.endswith`, on the character lists of the strings. -/
def strEndsWith (s suffix : String) : Bool :=
  suffix.data.isSuffixOf s.data

/-- The module-level `CALTOPO_URL` validation of `CalTopoReporter`:
`true` iff construction succeeds (no `ValueError`). `allowedPatterns`
is the parsed `CALTOPO_ALLOWED_URL_PATTERNS` list, `rawUrl` the raw URL
and `hostname` its parsed hostname. -/
def baseUrlValid (allowedPatterns : List String) (rawUrl hostname : String) : Bool :=
  match allowedPatterns with
  | [] => hostname == "caltopo.com" || strEndsWith hostname ".caltopo.com"
  | ps => ps.any fun p => matchesUrlPattern rawUrl p

/-! ## Identity resolution (`gateway_app.py`, `config/config.py`)

Python-level values and truthiness, as far as the modelled paths need
them: the `from` field of a message is either a JSON number (sender ids
are numeric, `uint64` per the external-interface section of the spec) or
a string; Python's `if not x` drops `0` and `""`. -/

/-- Value of a message field that the source passes around untyped. -/
inductive PyVal where
  | num (n : Nat)
  | str (s : String)
deriving DecidableEq

/-- Python truthiness for the values above (`if not numeric_node_id`). -/
def pyTruthy : PyVal → Bool
  | .num n => !(n == 0)
  | .str s => !(s == "")

/-- Python `str()` of such a value. -/
def pyStr : PyVal → String
  | .num n => toString n
  | .str s => s

/-- Python `int()` on a string, modelled for the canonical inputs the
gateway produces: a non-empty all-decimal-digit string parses to its
value, anything else raises (yielding `none`; Python additionally
tolerates signs, surrounding whitespace and `_` separators, which never
occur on the modelled paths). -/
def pyIntOfStr? (s : String) : Option Nat :=
  if !s.data.isEmpty && s.data.all (fun c => decide ('0' ≤ c) && decide (c ≤ '9')) then
    some (s.data.foldl (fun a c => a * 10 + (c.toNat - '0'.toNat)) 0)
  else none

/-- Python `int()` of such a value, as far as the gateway feeds it. -/
def pyInt? : PyVal → Option Nat
  | .num n => some n
  | .str s => pyIntOfStr? s

/-- Python truthiness filter on an optional string: `some s` with `s`
non-empty passes, `None` and `""` are falsy. -/
def truthyStr : Option String → Option String
  | some s => if s == "" then none else some s
  | none => none

/-- Digit expansion of a natural number in base `b` (most significant
digit first, lowercase letters for digits above 9) with explicit fuel so
that it is structurally recursive; `fuel > n` suffices for `b ≥ 2`
because the argument strictly decreases under division by `b`. -/
def digitsAux (b : Nat) : Nat → Nat → List Char
  | 0, _ => []
  | fuel + 1, n =>
    if n < b then [Nat.digitChar n]
    else digitsAux b fuel (n / b) ++ [Nat.digitChar (n % b)]

/-- The base-`b` digit string of `n`. -/
def natDigits (b n : Nat) : List Char :=
  digitsAux b (n + 1) n

/-- The lowercase hexadecimal digits of `n` (what Python's `%x` format
produces for a non-negative int). -/
def hexDigits (n : Nat) : List Char :=
  natDigits 16 n

/-- The decimal digits of `n` (Python `str()` of a non-negative int). -/
def decDigits (n : Nat) : List Char :=
  natDigits 10 n

/-- Numeric value of a base-`b` digit character produced by
`Nat.digitChar` (`0`-`9`, then lowercase `a`-`f`); meaningful only on
such characters. -/
def digitCharVal (c : Char) : Nat :=
  if decide (c ≤ '9') then c.toNat - '0'.toNat else c.toNat - 'a'.toNat + 10

/-- Python's `f"{val:08x}"`: the hex digits of `val`, left-padded with
`'0'` to a minimum width of 8. -/
def hexPad8 (n : Nat) : String :=
  ⟨List.replicate (8 - (hexDigits n).length) '0' ++ hexDigits n⟩

/-- `GatewayApp._convert_numeric_to_id`: `int()` the input and format it
as `f"!{val:08x}"`; if the conversion raises, fall back to
`f"!{str(numeric_id)}"`. -/
def convertNumericToId (v : PyVal) : String :=
  match pyInt? v with
  | some n => "!" ++ hexPad8 n
  | none => "!" ++ pyStr v

/-- `GatewayApp._resolve_hardware_id`: return the cached mapping if
present, else compute the id deterministically; never writes. The cache
is keyed by the decimal string of the numeric sender id. -/
def resolveHardwareId (nodeIdCache : List (String × String)) (numericNodeId : String) : String :=
  match nodeIdCache.lookup numericNodeId with
  | some v => v
  | none => convertNumericToId (.str numericNodeId)

/-- Assignment `d[k] = v` on an ordered dictionary without duplicate
keys (Python dict / the SQLite `INSERT OR REPLACE` table): replace the
existing entry in place, else append. -/
def dictInsert (k v : String) : List (String × String) → List (String × String)
  | [] => [(k, v)]
  | (k', v') :: rest =>
    if k' == k then (k, v) :: rest else (k', v') :: dictInsert k v rest

/-- One entry of the `nodes:` table of the configuration
(`config.NodeMapping`). -/
structure NodeMapping where
  device_id : String
  group : Option String
deriving DecidableEq

/-- The slice of the validated configuration object the pipeline reads. -/
structure GatewayConfig where
  /-- `config.nodes`, an ordered table keyed by stable id -/
  nodes : List (String × NodeMapping)
  /-- `config.devices.allow_unknown_devices` -/
  allowUnknownDevices : Bool
  /-- `config.caltopo.has_group` -/
  caltopoHasGroup : Bool
  /-- `config.caltopo.group` -/
  caltopoGroup : Option String
deriving DecidableEq

/-- `Config._get_node_mapping`: exact lookup first, then retry with the
`'!'` prefix stripped or added. -/
def getNodeMapping (nodes : List (String × NodeMapping)) (nodeId : String) :
    Option NodeMapping :=
  match nodes.lookup nodeId with
  | some m => some m
  | none =>
    match nodeId.data with
    | '!' :: rest => nodes.lookup ⟨rest⟩
    | _ => nodes.lookup ("!" ++ nodeId)

/-- `Config.get_node_device_id`. -/
def getNodeDeviceId (nodes : List (String × NodeMapping)) (nodeId : String) :
    Option String :=
  (getNodeMapping nodes nodeId).map (·.device_id)

/-- `Config.get_node_group`: the node's own group if truthy, else the
global `caltopo.group`. -/
def getNodeGroup (cfg : GatewayConfig) (nodeId : String) : Option String :=
  match getNodeMapping cfg.nodes nodeId with
  | some m =>
    match truthyStr m.group with
    | some g => some g
    | none => cfg.caltopoGroup
  | none => cfg.caltopoGroup

/-- `GatewayApp.configured_devices`, built in `initialize` as
`set(self.config.nodes.keys())` (raw keys, no `'!'` normalisation). -/
def configuredDevices (cfg : GatewayConfig) : List String :=
  cfg.nodes.map Prod.fst

/-- `GatewayApp._get_or_create_callsign`: configured `device_id` first
(configuration always wins), then the learned cache, then — only for
devices absent from the configured set — the hardware id itself if
unknown devices are allowed, else `None`; a configured device without
any label source also yields `None`. -/
def getOrCreateCallsign (cfg : GatewayConfig) (callsignCache : List (String × String))
    (hardwareId : String) : Option String :=
  match truthyStr (getNodeDeviceId cfg.nodes hardwareId) with
  | some d => some d
  | none =>
    match truthyStr (callsignCache.lookup hardwareId) with
    | some c => some c
    | none =>
      if !(configuredDevices cfg).contains hardwareId then
        if cfg.allowUnknownDevices then some hardwareId else none
      else none

/-! ## Pipeline state and handlers (`gateway_app.py`) -/

/-- The `self.stats` counters (the float `start_time` field is set once
at startup and not touched by message processing; it is omitted). -/
structure Stats where
  messagesReceived : Nat
  messagesProcessed : Nat
  positionUpdatesSent : Nat
  errors : Nat
deriving DecidableEq

/-- Mutable state of a fully initialised `GatewayApp`: the statistics,
the two in-memory caches, the two durable-store tables, and a count of
underlying durable-store writes per table (each `self.node_id_mapping[k]
= v` / `self.callsign_mapping[k] = v` statement is one write). -/
structure AppState where
  stats : Stats
  nodeIdCache : List (String × String)
  callsignCache : List (String × String)
  nodeIdMapping : List (String × String)
  callsignMapping : List (String × String)
  nodeIdWrites : Nat
  callsignWrites : Nat
deriving DecidableEq

/-- `GatewayApp._persist_node_id_mapping`: skip entirely when the cached
value already equals the new value, else write through cache and durable
store. -/
def persistNodeIdMapping (st : AppState) (numericNodeId hardwareId : String) : AppState :=
  if st.nodeIdCache.lookup numericNodeId == some hardwareId then st
  else
    { st with
      nodeIdCache := dictInsert numericNodeId hardwareId st.nodeIdCache
      nodeIdMapping := dictInsert numericNodeId hardwareId st.nodeIdMapping
      nodeIdWrites := st.nodeIdWrites + 1 }

/-- `GatewayApp._persist_callsign_mapping`: same pattern for the
callsign table. -/
def persistCallsignMapping (st : AppState) (hardwareId callsign : String) : AppState :=
  if st.callsignCache.lookup hardwareId == some callsign then st
  else
    { st with
      callsignCache := dictInsert hardwareId callsign st.callsignCache
      callsignMapping := dictInsert hardwareId callsign st.callsignMapping
      callsignWrites := st.callsignWrites + 1 }

/-- The fields of a decoded Meshtastic payload the handlers read
(`payload.get(...)`; a field of the wrong runtime type is outside this
model — the handlers only ever see these shapes on the modelled paths). -/
structure Payload where
  latitude_i : Option Int
  longitude_i : Option Int
  id : Option String
  longname : Option String
  shortname : Option String
deriving DecidableEq

/-- A decoded inbound message as `_process_message` sees it. `payload =
none` covers both an absent and an empty (falsy) `payload` dict;
`mqttRetain` is the truthiness of the injected `_mqtt_retain` flag. -/
structure RawMessage where
  fromField : Option PyVal
  typeField : Option String
  payload : Option Payload
  mqttRetain : Bool
deriving DecidableEq

/-- One invocation of `caltopo_reporter.send_position_update` as made by
the position handler (arguments in source order). -/
structure ReporterCall where
  callsign : String
  latitude : Rat
  longitude : Rat
  group : Option String
deriving DecidableEq

/-- Which handler `_process_message` dispatched to. -/
inductive Dispatched where
  | position
  | nodeinfo
  | telemetry
  | traceroute
deriving DecidableEq

/-- `self.stats["messages_received"] += 1` -/
def bumpReceived (st : AppState) : AppState :=
  { st with stats := { st.stats with messagesReceived := st.stats.messagesReceived + 1 } }

/-- `self.stats["messages_processed"] += 1` -/
def bumpProcessed (st : AppState) : AppState :=
  { st with stats := { st.stats with messagesProcessed := st.stats.messagesProcessed + 1 } }

/-- `GatewayApp._process_position_message` on an initialised app
(databases, config and reporter present). `reporterResult` is the oracle
for the boolean `send_position_update` would return if called; the list
of calls actually made is returned alongside the new state. -/
def processPositionMessage (cfg : GatewayConfig) (reporterResult : Bool)
    (st : AppState) (msg : RawMessage) (numericNodeId : PyVal) :
    AppState × List ReporterCall :=
  if msg.mqttRetain then (st, [])
  else
    match msg.payload with
    | none => (st, [])
    | some p =>
      match p.latitude_i, p.longitude_i with
      | some latI, some lngI =>
        let latitude : Rat := (latI : Rat) / 10000000
        let longitude : Rat := (lngI : Rat) / 10000000
        let fromStr := pyStr numericNodeId
        let hardwareId := resolveHardwareId st.nodeIdCache fromStr
        let isNewMapping := (st.nodeIdCache.lookup fromStr).isNone
        match truthyStr (getOrCreateCallsign cfg st.callsignCache hardwareId) with
        | none => (st, [])
        | some callsign =>
          let st1 := if isNewMapping then persistNodeIdMapping st fromStr hardwareId else st
          let group : Option String :=
            if cfg.caltopoHasGroup then
              match truthyStr (getNodeGroup cfg hardwareId) with
              | some g => some g
              | none => cfg.caltopoGroup
            else none
          let st2 :=
            if reporterResult then
              { st1 with stats :=
                { st1.stats with positionUpdatesSent := st1.stats.positionUpdatesSent + 1 } }
            else
              { st1 with stats := { st1.stats with errors := st1.stats.errors + 1 } }
          (st2, [⟨callsign, latitude, longitude, group⟩])
      | _, _ => (st, [])

/-- `GatewayApp._process_nodeinfo_message` on an initialised app. -/
def processNodeinfoMessage (cfg : GatewayConfig) (st : AppState)
    (msg : RawMessage) (numericNodeId : PyVal) : AppState :=
  match msg.payload with
  | none => st
  | some p =>
    match truthyStr p.id with
    | none => st
    | some nid =>
      let st1 := persistNodeIdMapping st (pyStr numericNodeId) nid
      match truthyStr (getNodeDeviceId cfg.nodes nid) with
      | some d => persistCallsignMapping st1 nid d
      | none =>
        match truthyStr p.longname with
        | some ln => persistCallsignMapping st1 nid ln
        | none =>
          match truthyStr p.shortname with
          | some sn => persistCallsignMapping st1 nid sn
          | none => st1

/-- `GatewayApp._process_message`: count the message as received, drop it
when the `from` field is absent or falsy, dispatch on `type`
(`position` / `nodeinfo` / `telemetry` / `traceroute`; empty or unknown
types are dropped), and count every dispatched message as processed.
The returned triple is (new state, reporter calls made, handler
dispatched to). -/
def processMessage (cfg : GatewayConfig) (reporterResult : Bool)
    (st : AppState) (msg : RawMessage) :
    AppState × List ReporterCall × Option Dispatched :=
  let st := bumpReceived st
  match msg.fromField with
  | none => (st, [], none)
  | some v =>
    if !pyTruthy v then (st, [], none)
    else
      match msg.typeField with
      | some "position" =>
        let res := processPositionMessage cfg reporterResult st msg v
        (bumpProcessed res.1, res.2, some .position)
      | some "nodeinfo" =>
        (bumpProcessed (processNodeinfoMessage cfg st msg v), [], some .nodeinfo)
      | some "telemetry" => (bumpProcessed st, [], some .telemetry)
      | some "traceroute" => (bumpProcessed st, [], some .traceroute)
      | some "" => (st, [], none)
      | some _ => (st, [], none)
      | none => (st, [], none)

/-! ## Durable key-value store (`persistent_dict.py`)

`PersistentDict.__setitem__` stores `json.dumps(value)` into a
`(key TEXT PRIMARY KEY, value TEXT)` table; `__getitem__` reads the text
back and `json.loads` it, turning both a missing row and a
`json.JSONDecodeError` into `KeyError`.

The Python `json` codec (a stdlib dependency, not repository code) is
modelled concretely for the JSON fragment the store can hold in this
embedding: `null`, booleans, integers (JSON numbers with a fraction or
exponent part denote floats, which a shallow embedding cannot
represent — `jsonLoads?` rejects such texts, as it does the Python
extensions `NaN`/`Infinity` and lone surrogate escapes), strings over
Unicode scalar values, arrays and objects.  `jsonDumps` mirrors
`json.dumps` with its default options: separators `", "` and `": "`,
and `ensure_ascii=True` escaping including surrogate pairs. -/

mutual
/-- A JSON value as stored by `PersistentDict` (see the section comment
for the modelled fragment). -/
inductive Json where
  | null
  | bool (b : Bool)
  | num (n : Int)
  | str (s : String)
  | arr (xs : JsonArr)
  | obj (fs : JsonObj)
deriving DecidableEq

/-- The element list of a JSON array. -/
inductive JsonArr where
  | nil
  | cons (hd : Json) (tl : JsonArr)
deriving DecidableEq

/-- The key/value member list of a JSON object. -/
inductive JsonObj where
  | nil
  | cons (key : String) (val : Json) (tl : JsonObj)
deriving DecidableEq
end

/-- The opening brace character. -/
def lbrace : Char := Char.ofNat 123

/-- The closing brace character. -/
def rbrace : Char := Char.ofNat 125

/-- The four ASCII whitespace characters `json.loads` skips between
tokens. -/
def isWsChar (c : Char) : Bool :=
  c == ' ' || c == Char.ofNat 9 || c == Char.ofNat 10 || c == Char.ofNat 13

/-- `[0-9]` -/
def isDigitChar (c : Char) : Bool :=
  decide ('0' ≤ c) && decide (c ≤ '9')

/-- Four lowercase hex digits, most significant nibble first (the body
of a `\uXXXX` escape, for values below `0x10000`). -/
def hex4 (n : Nat) : List Char :=
  [Nat.digitChar (n / 4096 % 16), Nat.digitChar (n / 256 % 16),
   Nat.digitChar (n / 16 % 16), Nat.digitChar (n % 16)]

/-- `json.dumps` escaping of one string character with
`ensure_ascii=True`: the named short escapes, `\u00XX` for the
remaining control characters, printable ASCII verbatim, `\uXXXX` for
other BMP scalars and a surrogate pair for scalars above `0xFFFF`. -/
def escapeChar (c : Char) : List Char :=
  if c == '"' then ['\\', '"']
  else if c == '\\' then ['\\', '\\']
  else if c == Char.ofNat 8 then ['\\', 'b']
  else if c == Char.ofNat 9 then ['\\', 't']
  else if c == Char.ofNat 10 then ['\\', 'n']
  else if c == Char.ofNat 12 then ['\\', 'f']
  else if c == Char.ofNat 13 then ['\\', 'r']
  else if decide (c.toNat < 32) then '\\' :: 'u' :: hex4 c.toNat
  else if decide (c.toNat ≤ 126) then [c]
  else if decide (c.toNat ≤ 65535) then '\\' :: 'u' :: hex4 c.toNat
  else
    ('\\' :: 'u' :: hex4 (55296 + (c.toNat - 65536) / 1024)) ++
    ('\\' :: 'u' :: hex4 (56320 + (c.toNat - 65536) % 1024))

/-- Escape every character of a string body. -/
def escString : List Char → List Char
  | [] => []
  | c :: cs => escapeChar c ++ escString cs

/-- Python `str()` of an int (used by `json.dumps` for integers). -/
def intChars (i : Int) : List Char :=
  if i < 0 then '-' :: decDigits i.natAbs else decDigits i.toNat

mutual
/-- `json.dumps` with default options, producing the serialized
character list. -/
def dumpJson : Json → List Char
  | .null => "null".data
  | .bool true => "true".data
  | .bool false => "false".data
  | .num i => intChars i
  | .str s => '"' :: escString s.data ++ ['"']
  | .arr xs => '[' :: dumpArrBody xs
  | .obj fs => lbrace :: dumpObjBody fs

/-- The part of a serialized array after `[`: the elements joined by
`", "` (the default separator) and the closing bracket. -/
def dumpArrBody : JsonArr → List Char
  | .nil => [']']
  | .cons x tl => dumpJson x ++ dumpArrTail tl

/-- The part of a serialized array after its first element. -/
def dumpArrTail : JsonArr → List Char
  | .nil => [']']
  | .cons x tl => ',' :: ' ' :: (dumpJson x ++ dumpArrTail tl)

/-- The part of a serialized object after the brace: members
`"key": value` (quoted escaped key, `": "` separator, value) joined by
`", "` and the closing brace. -/
def dumpObjBody : JsonObj → List Char
  | .nil => [rbrace]
  | .cons k v tl =>
    '"' :: escString k.data ++ '"' :: ':' :: ' ' :: (dumpJson v ++ dumpObjTail tl)

/-- The part of a serialized object after its first member. -/
def dumpObjTail : JsonObj → List Char
  | .nil => [rbrace]
  | .cons k v tl =>
    ',' :: ' ' :: '"' :: escString k.data ++ '"' :: ':' :: ' ' :: (dumpJson v ++ dumpObjTail tl)
end

/-- `json.dumps(value)` as a string. -/
def jsonDumps (v : Json) : String := ⟨dumpJson v⟩

/-- Skip inter-token whitespace. -/
def skipWs : List Char → List Char
  | [] => []
  | c :: cs => if isWsChar c then skipWs cs else c :: cs

/-- Value of one hex digit (`json.loads` accepts both cases). -/
def hexVal? (c : Char) : Option Nat :=
  if isDigitChar c then some (c.toNat - '0'.toNat)
  else if decide ('a' ≤ c) && decide (c ≤ 'f') then some (c.toNat - 'a'.toNat + 10)
  else if decide ('A' ≤ c) && decide (c ≤ 'F') then some (c.toNat - 'A'.toNat + 10)
  else none

/-- Parse exactly four hex digits into their value. -/
def parseHex4 : List Char → Option (Nat × List Char)
  | a :: b :: c :: d :: rest =>
    match hexVal? a, hexVal? b, hexVal? c, hexVal? d with
    | some x, some y, some z, some w => some (((x * 16 + y) * 16 + z) * 16 + w, rest)
    | _, _, _, _ => none
  | _ => none

/-- Prepend a decoded character to the result of parsing the remainder
of a string body. -/
def consFst (c : Char) : Option (List Char × List Char) → Option (List Char × List Char)
  | some (s, r) => some (c :: s, r)
  | none => none

/-- Parse the body of a JSON string up to (and consuming) the closing
quote: literal characters (raw control characters are rejected, as by
Python's default `strict=True`), the named escapes, and `\uXXXX` with
surrogate pairs combined (a lone surrogate escape is rejected; Python
tolerates it but the resulting non-scalar string is outside this
model).  Fuelled; every step consumes at least one input character, so
`input.length + 1` fuel always suffices. -/
def parseStringBody : Nat → List Char → Option (List Char × List Char)
  | 0, _ => none
  | fuel + 1, cs =>
    match cs with
    | [] => none
    | c :: rest =>
      if c == '"' then some ([], rest)
      else if c == '\\' then
        match rest with
        | [] => none
        | e :: rest1 =>
          if e == '"' then consFst '"' (parseStringBody fuel rest1)
          else if e == '\\' then consFst '\\' (parseStringBody fuel rest1)
          else if e == '/' then consFst '/' (parseStringBody fuel rest1)
          else if e == 'b' then consFst (Char.ofNat 8) (parseStringBody fuel rest1)
          else if e == 't' then consFst (Char.ofNat 9) (parseStringBody fuel rest1)
          else if e == 'n' then consFst (Char.ofNat 10) (parseStringBody fuel rest1)
          else if e == 'f' then consFst (Char.ofNat 12) (parseStringBody fuel rest1)
          else if e == 'r' then consFst (Char.ofNat 13) (parseStringBody fuel rest1)
          else if e == 'u' then
            match parseHex4 rest1 with
            | none => none
            | some (u, rest2) =>
              if decide (55296 ≤ u) && decide (u ≤ 56319) then
                match rest2 with
                | '\\' :: 'u' :: rest3 =>
                  match parseHex4 rest3 with
                  | none => none
                  | some (l, rest4) =>
                    if decide (56320 ≤ l) && decide (l ≤ 57343) then
                      consFst (Char.ofNat (65536 + (u - 55296) * 1024 + (l - 56320)))
                        (parseStringBody fuel rest4)
                    else none
                | _ => none
              else if decide (56320 ≤ u) && decide (u ≤ 57343) then none
              else consFst (Char.ofNat u) (parseStringBody fuel rest2)
          else none
      else if decide (c.toNat < 32) then none
      else consFst c (parseStringBody fuel rest)

/-- Longest digit run at the head of the input. -/
def spanDigits : List Char → List Char × List Char
  | [] => ([], [])
  | c :: cs =>
    if isDigitChar c then
      let p := spanDigits cs
      (c :: p.1, p.2)
    else ([], c :: cs)

/-- Decimal value of a digit run. -/
def digitsVal (ds : List Char) : Nat :=
  ds.foldl (fun a c => a * 10 + (c.toNat - '0'.toNat)) 0

/-- Parse an unsigned JSON integer token: at least one digit, no
redundant leading zero, and not followed by a fraction or exponent part
(JSON texts denoting floats are outside this model and rejected). -/
def parseIntToken (cs : List Char) : Option (Nat × List Char) :=
  match spanDigits cs with
  | ([], _) => none
  | (ds, rest) =>
    if decide (1 < ds.length) && (ds.head? == some '0') then none
    else
      match rest with
      | [] => some (digitsVal ds, [])
      | c :: _ =>
        if c == '.' || c == 'e' || c == 'E' then none
        else some (digitsVal ds, rest)

mutual
/-- Recursive-descent parser for the modelled JSON fragment (the model
of `json.loads`).  Fuelled: each call consumes at least one
non-whitespace input character before recursing, and `jsonLoads?`
supplies ample fuel. -/
def parseJson : Nat → List Char → Option (Json × List Char)
  | 0, _ => none
  | fuel + 1, cs =>
    match skipWs cs with
    | [] => none
    | c :: rest =>
      if c == 'n' then
        match rest with
        | 'u' :: 'l' :: 'l' :: r => some (.null, r)
        | _ => none
      else if c == 't' then
        match rest with
        | 'r' :: 'u' :: 'e' :: r => some (.bool true, r)
        | _ => none
      else if c == 'f' then
        match rest with
        | 'a' :: 'l' :: 's' :: 'e' :: r => some (.bool false, r)
        | _ => none
      else if c == '"' then
        match parseStringBody (rest.length + 1) rest with
        | some (s, r) => some (.str ⟨s⟩, r)
        | none => none
      else if c == '[' then
        match skipWs rest with
        | [] => none
        | c2 :: r2 =>
          if c2 == ']' then some (.arr .nil, r2)
          else
            match parseArrElems fuel (c2 :: r2) with
            | some (xs, r3) => some (.arr xs, r3)
            | none => none
      else if c == lbrace then
        match skipWs rest with
        | [] => none
        | c2 :: r2 =>
          if c2 == rbrace then some (.obj .nil, r2)
          else
            match parseObjElems fuel (c2 :: r2) with
            | some (fs, r3) => some (.obj fs, r3)
            | none => none
      else if c == '-' then
        match parseIntToken rest with
        | some (n, r) => some (.num (-(n : Int)), r)
        | none => none
      else if isDigitChar c then
        match parseIntToken (c :: rest) with
        | some (n, r) => some (.num (n : Int), r)
        | none => none
      else none

/-- Parse the non-empty element list of an array, consuming the closing
bracket. -/
def parseArrElems : Nat → List Char → Option (JsonArr × List Char)
  | 0, _ => none
  | fuel + 1, cs =>
    match parseJson fuel cs with
    | none => none
    | some (v, rest) =>
      match skipWs rest with
      | [] => none
      | c :: r2 =>
        if c == ',' then
          match parseArrElems fuel r2 with
          | some (tl, r3) => some (.cons v tl, r3)
          | none => none
        else if c == ']' then some (.cons v .nil, r2)
        else none

/-- Parse the non-empty member list of an object, consuming the closing
brace. -/
def parseObjElems : Nat → List Char → Option (JsonObj × List Char)
  | 0, _ => none
  | fuel + 1, cs =>
    match skipWs cs with
    | [] => none
    | c :: rest =>
      if c == '"' then
        match parseStringBody (rest.length + 1) rest with
        | none => none
        | some (k, r1) =>
          match skipWs r1 with
          | [] => none
          | c2 :: r2 =>
            if c2 == ':' then
              match parseJson fuel r2 with
              | none => none
              | some (v, r3) =>
                match skipWs r3 with
                | [] => none
                | c3 :: r4 =>
                  if c3 == ',' then
                    match parseObjElems fuel r4 with
                    | some (tl, r5) => some (.cons ⟨k⟩ v tl, r5)
                    | none => none
                  else if c3 == rbrace then some (.cons ⟨k⟩ v .nil, r4)
                  else none
            else none
      else none
end

/-- `json.loads(s)`: parse one value, then require only trailing
whitespace. -/
def jsonLoads? (s : String) : Option Json :=
  match parseJson (2 * s.data.length + 2) s.data with
  | some (v, rest) => if (skipWs rest).isEmpty then some v else none
  | none => none

/-- One of the two error outcomes `PersistentDict` raises on the
modelled paths. -/
inductive DbError where
  | keyError (key : String)
  | runtimeError
deriving DecidableEq

/-- `PersistentDict.__getitem__`: `RuntimeError` when the connection is
closed, `KeyError` when the row is missing or its text fails to decode
as JSON, the decoded value otherwise. -/
def pdictGet (conn : Bool) (table : List (String × String)) (key : String) :
    Except DbError Json :=
  if !conn then .error .runtimeError
  else
    match table.lookup key with
    | none => .error (.keyError key)
    | some txt =>
      match jsonLoads? txt with
      | some v => .ok v
      | none => .error (.keyError key)

/-- `PersistentDict.__setitem__`: `RuntimeError` when the connection is
closed, else `INSERT OR REPLACE` of the JSON-serialized value. -/
def pdictSet (conn : Bool) (table : List (String × String)) (key : String) (v : Json) :
    Except DbError (List (String × String)) :=
  if !conn then .error .runtimeError
  else .ok (dictInsert key (jsonDumps v) table)

/-- Written from the round-trip statement: the characters that may not
directly follow a serialized integer (a digit would extend the token, a
fraction or exponent mark would turn it into a float literal). -/
def numBoundary : List Char → Bool
  | [] => true
  | c :: _ => !(isDigitChar c || c == '.' || c == 'e' || c == 'E')

mutual
/-- Fuel sufficient for `parseJson` to parse `dumpJson v`. -/
def jsonFuel : Json → Nat
  | .null | .bool _ | .num _ | .str _ => 1
  | .arr xs => 1 + jsonArrFuel xs
  | .obj fs => 1 + jsonObjFuel fs

def jsonArrFuel : JsonArr → Nat
  | .nil => 0
  | .cons x tl => 1 + jsonFuel x + jsonArrFuel tl

def jsonObjFuel : JsonObj → Nat
  | .nil => 0
  | .cons _ v tl => 1 + jsonFuel v + jsonObjFuel tl
end

/-! ## Concrete fixtures used by counterexamples and witnesses -/

/-- All statistics counters at zero. -/
def zeroStats : Stats := ⟨0, 0, 0, 0⟩

/-- A freshly initialised application state: empty caches, empty durable
store, zero counters. -/
def freshState : AppState := ⟨zeroStats, [], [], [], [], 0, 0⟩

/-- A configuration with no static nodes and `allow_unknown_devices:
false`. -/
def cfgBlockUnknown : GatewayConfig := ⟨[], false, false, none⟩

/-- A configuration with no static nodes and `allow_unknown_devices:
true`. -/
def cfgAllowUnknown : GatewayConfig := ⟨[], true, false, none⟩

/-- A configuration statically mapping stable id `!823a4edc` to label
`TEAM-LEAD`. -/
def cfgTeamLead : GatewayConfig :=
  ⟨[("!823a4edc", ⟨"TEAM-LEAD", none⟩)], false, false, none⟩

/-- A live (non-retained) position message from numeric sender 5 with
the spec's Scenario B coordinates. -/
def posMsg5 : RawMessage :=
  ⟨some (.num 5), some "position",
   some ⟨some 612188460, some (-1499001320), none, none, none⟩, false⟩

/-- A nodeinfo message from numeric sender 5 reporting stable id
`!00000005` and longname `Alice`. -/
def nodeinfoMsg5 : RawMessage :=
  ⟨some (.num 5), some "nodeinfo",
   some ⟨none, none, some "!00000005", some "Alice", none⟩, false⟩

/-- A message from numeric sender 5 whose payload carries both position
coordinates and nodeinfo fields. -/
def fullMsg5 : RawMessage :=
  ⟨some (.num 5), some "nodeinfo",
   some ⟨some 612188460, some (-1499001320), some "!00000005", some "Alice", none⟩, false⟩

/-- A JSON value exercising every constructor of the model, including a
string with escapes, a non-BMP scalar (serialized as a surrogate pair)
and a negative number. -/
def sampleJson : Json :=
  .obj (.cons "callsign" (.str ⟨['T', 'L', '"', '\\', Char.ofNat 10, Char.ofNat 233,
        Char.ofNat 128169]⟩)
    (.cons "ids" (.arr (.cons (.num 24896776) (.cons (.num (-7)) (.cons (.bool true)
        (.cons .null .nil)))))
      .nil))

/-! ## Helper lemmas -/

theorem lookup_dictInsert_self (k v : String) (l : List (String × String)) :
    (dictInsert k v l).lookup k = some v := by
  induction l with
  | nil => simp [dictInsert]
  | cons p rest ih =>
    obtain ⟨k', v'⟩ := p
    simp only [dictInsert]
    split
    · next h =>
      simp only [beq_iff_eq] at h
      subst h
      simp [List.lookup]
    · next h =>
      simp only [beq_iff_eq] at h
      have hne : (k == k') = false := by
        simp only [beq_eq_false_iff_ne, ne_eq]
        exact fun hh => h hh.symm
      simp [List.lookup, hne, ih]

/-! ## C9 — idempotent persistence -/

/-- C9: persisting a mapping whose value equals the currently cached
value is a no-op for both `_persist_node_id_mapping` and
`_persist_callsign_mapping` — no durable-store write, cache, store and
write counters untouched — and hence persisting the identical mapping
twice performs at most one underlying write (the second call leaves the
state of the first call unchanged). -/
theorem persist_identical_mapping_noop (st : AppState) (k v : String) :
    (st.nodeIdCache.lookup k = some v → persistNodeIdMapping st k v = st) ∧
    (st.callsignCache.lookup k = some v → persistCallsignMapping st k v = st) ∧
    persistNodeIdMapping (persistNodeIdMapping st k v) k v = persistNodeIdMapping st k v ∧
    persistCallsignMapping (persistCallsignMapping st k v) k v = persistCallsignMapping st k v ∧
    (persistNodeIdMapping (persistNodeIdMapping st k v) k v).nodeIdWrites ≤ st.nodeIdWrites + 1 ∧
    (persistCallsignMapping (persistCallsignMapping st k v) k v).callsignWrites ≤ st.callsignWrites + 1 := by
  have hnode : ∀ s : AppState, s.nodeIdCache.lookup k = some v → persistNodeIdMapping s k v = s := by
    intro s h
    simp [persistNodeIdMapping, h]
  have hcall : ∀ s : AppState, s.callsignCache.lookup k = some v → persistCallsignMapping s k v = s := by
    intro s h
    simp [persistCallsignMapping, h]
  have hnode2 : persistNodeIdMapping (persistNodeIdMapping st k v) k v = persistNodeIdMapping st k v := by
    apply hnode
    by_cases h : st.nodeIdCache.lookup k = some v
    · rw [hnode st h]; exact h
    · have : persistNodeIdMapping st k v =
          { st with
            nodeIdCache := dictInsert k v st.nodeIdCache
            nodeIdMapping := dictInsert k v st.nodeIdMapping
            nodeIdWrites := st.nodeIdWrites + 1 } := by
        simp [persistNodeIdMapping, h]
      rw [this]
      exact lookup_dictInsert_self k v st.nodeIdCache
  have hcall2 : persistCallsignMapping (persistCallsignMapping st k v) k v = persistCallsignMapping st k v := by
    apply hcall
    by_cases h : st.callsignCache.lookup k = some v
    · rw [hcall st h]; exact h
    · have : persistCallsignMapping st k v =
          { st with
            callsignCache := dictInsert k v st.callsignCache
            callsignMapping := dictInsert k v st.callsignMapping
            callsignWrites := st.callsignWrites + 1 } := by
        simp [persistCallsignMapping, h]
      rw [this]
      exact lookup_dictInsert_self k v st.callsignCache
  refine ⟨hnode st, hcall st, hnode2, hcall2, ?_, ?_⟩
  · rw [hnode2]
    by_cases h : st.nodeIdCache.lookup k = some v
    · rw [hnode st h]; omega
    · simp [persistNodeIdMapping, h]
  · rw [hcall2]
    by_cases h : st.callsignCache.lookup k = some v
    · rw [hcall st h]; omega
    · simp [persistCallsignMapping, h]

/-- Witness for C9 at a concrete state: the cache already maps `"5"` to
`"!00000005"`, so re-persisting that pair is the identity and a double
persist costs at most one write. -/
theorem persist_identical_mapping_noop_witness :
    persistNodeIdMapping ⟨zeroStats, [("5", "!00000005")], [], [("5", "!00000005")], [], 1, 0⟩ "5" "!00000005" =
      ⟨zeroStats, [("5", "!00000005")], [], [("5", "!00000005")], [], 1, 0⟩ ∧
    (persistNodeIdMapping (persistNodeIdMapping freshState "5" "!00000005") "5" "!00000005").nodeIdWrites ≤
      freshState.nodeIdWrites + 1 :=
  ⟨(persist_identical_mapping_noop ⟨zeroStats, [("5", "!00000005")], [], [("5", "!00000005")], [], 1, 0⟩
      "5" "!00000005").1 (by decide),
   (persist_identical_mapping_noop freshState "5" "!00000005").2.2.2.2.1⟩

/-! ## C4 — static configuration wins over learned labels -/

/-- C4: for every stable id with a (non-empty) statically configured
`device_id`, `_get_or_create_callsign` returns that configured label no
matter what the learned callsign cache contains — the configured-device
check precedes the cache lookup. -/
theorem configured_label_always_wins (cfg : GatewayConfig)
    (cache : List (String × String)) (hardwareId d : String)
    (h1 : getNodeDeviceId cfg.nodes hardwareId = some d) (h2 : d ≠ "") :
    getOrCreateCallsign cfg cache hardwareId = some d := by
  simp [getOrCreateCallsign, h1, truthyStr, h2]

/-- Witness for C4, the spec's Scenario C: static config maps
`!823a4edc` to `TEAM-LEAD`, the cache has learned `Alice` for the same
id (as after a nodeinfo with that longname), and resolution still
returns `TEAM-LEAD`. -/
theorem configured_label_always_wins_witness :
    getOrCreateCallsign cfgTeamLead [("!823a4edc", "Alice")] "!823a4edc" = some "TEAM-LEAD" :=
  configured_label_always_wins cfgTeamLead [("!823a4edc", "Alice")] "!823a4edc" "TEAM-LEAD"
    (by decide) (by decide)

/-! ## C10 — falsy `from` field -/

/-- C10: `_process_message` guards with `if not numeric_node_id`, so a
message whose `from` field is any falsy value (the number 0, the empty
string) is dropped exactly like a message with no `from` field at all:
no handler is dispatched, no reporter call is made,
`messages_processed` is not incremented, and only `messages_received`
is incremented. -/
theorem falsy_from_dropped (cfg : GatewayConfig) (r : Bool) (st : AppState)
    (msg : RawMessage) (v : PyVal)
    (h1 : msg.fromField = some v) (h2 : pyTruthy v = false) :
    processMessage cfg r st msg = (bumpReceived st, [], none) ∧
    processMessage cfg r st { msg with fromField := none } = (bumpReceived st, [], none) ∧
    (bumpReceived st).stats.messagesProcessed = st.stats.messagesProcessed ∧
    (bumpReceived st).stats.messagesReceived = st.stats.messagesReceived + 1 := by
  refine ⟨?_, ?_, rfl, rfl⟩
  · simp [processMessage, h1, h2]
  · simp [processMessage]

/-- Witness for C10: a position message from numeric sender `0` and one
with an empty-string sender are both dropped before dispatch. -/
theorem falsy_from_dropped_witness :
    processMessage cfgAllowUnknown true freshState
      ⟨some (.num 0), some "position",
       some ⟨some 612188460, some (-1499001320), none, none, none⟩, false⟩ =
      (bumpReceived freshState, [], none) ∧
    processMessage cfgAllowUnknown true freshState
      ⟨some (.str ""), some "position", some ⟨some 1, some 2, none, none, none⟩, false⟩ =
      (bumpReceived freshState, [], none) :=
  ⟨(falsy_from_dropped cfgAllowUnknown true freshState _ _ rfl (by decide)).1,
   (falsy_from_dropped cfgAllowUnknown true freshState _ _ rfl (by decide)).1⟩

/-! ## C7 — base URL host validation -/

/-- C7: with no explicit test-mode allow-list configured, reporter
construction fails (raises `ValueError`, modelled as `baseUrlValid =
false`) for every hostname that is neither `caltopo.com` nor a
subdomain of it (a suffix `.caltopo.com`); in particular it fails for
`evil.example.com`; conversely `caltopo.com` itself and every
`.caltopo.com` subdomain are accepted. -/
theorem base_url_host_validation :
    (∀ url host : String, host ≠ "caltopo.com" →
      strEndsWith host ".caltopo.com" = false → baseUrlValid [] url host = false) ∧
    (∀ url : String, baseUrlValid [] url "evil.example.com" = false) ∧
    (∀ url host : String, host = "caltopo.com" ∨ strEndsWith host ".caltopo.com" = true →
      baseUrlValid [] url host = true) := by
  refine ⟨?_, ?_, ?_⟩
  · intro url host h1 h2
    simp [baseUrlValid, h1, h2]
  · intro url
    simp only [baseUrlValid]
    decide
  · intro url host h
    rcases h with h | h
    · subst h
      simp [baseUrlValid]
    · simp [baseUrlValid, h]

/-- Witness for C7, including the spec's Scenario E: `evil.example.com`
is rejected, `caltopo.com` and the `sartopo.caltopo.com` subdomain are
accepted. -/
theorem base_url_host_validation_witness :
    baseUrlValid [] "https://evil.example.com/api/v1/position/report" "evil.example.com" = false ∧
    baseUrlValid [] "https://caltopo.com/api/v1/position/report" "caltopo.com" = true ∧
    baseUrlValid [] "https://sartopo.caltopo.com/api/v1/position/report" "sartopo.caltopo.com" = true :=
  ⟨base_url_host_validation.1 _ _ (by decide) (by decide),
   base_url_host_validation.2.2 _ _ (Or.inl rfl),
   base_url_host_validation.2.2 _ _ (Or.inr (by decide))⟩

/-! ## C6 — retry budget -/

theorem outcome5xx_classify {o : HttpOutcome} (h : outcome5xx o = true) :
    outcomeSuccess o = false ∧ outcomeRetryable o = true := by
  cases o with
  | status c =>
    simp only [outcome5xx, Bool.and_eq_true, decide_eq_true_eq] at h
    constructor
    · simp only [outcomeSuccess, beq_eq_false_iff_ne, ne_eq]
      omega
    · simp only [outcomeRetryable, Bool.or_eq_true, Bool.and_eq_true, decide_eq_true_eq]
      left
      omega
  | netError => simp [outcome5xx] at h
  | otherError => simp [outcome5xx] at h

theorem makeApiRequestAux_step (r : Nat → HttpOutcome) (fuel a : Nat)
    (hs : outcomeSuccess (r a) = false) (hr : outcomeRetryable (r a) = true) :
    makeApiRequestAux r (fuel + 1) a = makeApiRequestAux r fuel (a + 1) := by
  simp [makeApiRequestAux, hs, hr]

theorem apiRequestAttemptsAux_step (r : Nat → HttpOutcome) (fuel a : Nat)
    (hs : outcomeSuccess (r a) = false) (hr : outcomeRetryable (r a) = true) :
    apiRequestAttemptsAux r (fuel + 1) a = 1 + apiRequestAttemptsAux r fuel (a + 1) := by
  simp [apiRequestAttemptsAux, hs, hr]

/-- C6: a delivery whose every attempt draws a 5xx response performs
exactly 4 HTTP calls (1 initial + `max_retries = 3`) and then reports
failure by returning `false` — `_make_api_request` never raises, its
only outcomes are the booleans. -/
theorem retry_budget_four_attempts (r : Nat → HttpOutcome)
    (h : ∀ i, i < 4 → outcome5xx (r i) = true) :
    apiRequestAttempts r = 4 ∧ makeApiRequest r = false := by
  have h0 := outcome5xx_classify (h 0 (by omega))
  have h1 := outcome5xx_classify (h 1 (by omega))
  have h2 := outcome5xx_classify (h 2 (by omega))
  have h3 := outcome5xx_classify (h 3 (by omega))
  constructor
  · calc apiRequestAttempts r = apiRequestAttemptsAux r 4 0 := rfl
      _ = 1 + apiRequestAttemptsAux r 3 1 := apiRequestAttemptsAux_step r 3 0 h0.1 h0.2
      _ = 1 + (1 + apiRequestAttemptsAux r 2 2) := by
          rw [apiRequestAttemptsAux_step r 2 1 h1.1 h1.2]
      _ = 1 + (1 + (1 + apiRequestAttemptsAux r 1 3)) := by
          rw [apiRequestAttemptsAux_step r 1 2 h2.1 h2.2]
      _ = 1 + (1 + (1 + (1 + apiRequestAttemptsAux r 0 4))) := by
          rw [apiRequestAttemptsAux_step r 0 3 h3.1 h3.2]
      _ = 4 := by rfl
  · calc makeApiRequest r = makeApiRequestAux r 4 0 := rfl
      _ = makeApiRequestAux r 3 1 := makeApiRequestAux_step r 3 0 h0.1 h0.2
      _ = makeApiRequestAux r 2 2 := makeApiRequestAux_step r 2 1 h1.1 h1.2
      _ = makeApiRequestAux r 1 3 := makeApiRequestAux_step r 1 2 h2.1 h2.2
      _ = makeApiRequestAux r 0 4 := makeApiRequestAux_step r 0 3 h3.1 h3.2
      _ = false := rfl

/-- Witness for C6: an endpoint that answers 503 on every attempt is
called exactly 4 times and the delivery returns `false`. -/
theorem retry_budget_four_attempts_witness :
    apiRequestAttempts (fun _ => .status 503) = 4 ∧
    makeApiRequest (fun _ => .status 503) = false :=
  retry_budget_four_attempts (fun _ => .status 503) (by decide)

/-! ## C1 — overall report success -/

theorem makeApiRequestAux_eq_any (r : Nat → HttpOutcome) (fuel : Nat) :
    ∀ a, makeApiRequestAux r fuel a =
      ((List.range fuel).any fun i =>
        outcomeSuccess (r (a + i)) &&
          ((List.range i).all fun j => outcomeRetryable (r (a + j)))) := by
  induction fuel with
  | zero => intro a; simp [makeApiRequestAux]
  | succ fuel ih =>
    intro a
    by_cases hs : outcomeSuccess (r a) = true
    · have hlhs : makeApiRequestAux r (fuel + 1) a = true := by
        simp [makeApiRequestAux, hs]
      rw [hlhs]
      symm
      rw [List.any_eq_true]
      exact ⟨0, List.mem_range.mpr (by omega), by simpa using hs⟩
    · replace hs : outcomeSuccess (r a) = false := by simpa using hs
      by_cases hr : outcomeRetryable (r a) = true
      · rw [makeApiRequestAux_step r fuel a hs hr, ih (a + 1), Bool.eq_iff_iff,
          List.any_eq_true, List.any_eq_true]
        constructor
        · rintro ⟨i, hi, hfi⟩
          rw [List.mem_range] at hi
          refine ⟨i + 1, List.mem_range.mpr (by omega), ?_⟩
          rw [Bool.and_eq_true] at hfi ⊢
          obtain ⟨hsucc, hall⟩ := hfi
          refine ⟨by rw [show a + (i + 1) = a + 1 + i by omega]; exact hsucc, ?_⟩
          rw [List.all_eq_true] at hall ⊢
          intro j hj
          rw [List.mem_range] at hj
          rcases Nat.eq_zero_or_pos j with h0 | hpos
          · subst h0
            simpa using hr
          · obtain ⟨j', rfl⟩ : ∃ j', j = j' + 1 := ⟨j - 1, by omega⟩
            have := hall j' (List.mem_range.mpr (by omega))
            rw [show a + (j' + 1) = a + 1 + j' by omega]
            exact this
        · rintro ⟨i, hi, hfi⟩
          rw [List.mem_range] at hi
          rcases Nat.eq_zero_or_pos i with h0 | hpos
          · subst h0
            rw [Bool.and_eq_true] at hfi
            have : outcomeSuccess (r a) = true := by simpa using hfi.1
            rw [this] at hs
            exact absurd hs (by simp)
          · obtain ⟨i', rfl⟩ : ∃ i', i = i' + 1 := ⟨i - 1, by omega⟩
            refine ⟨i', List.mem_range.mpr (by omega), ?_⟩
            rw [Bool.and_eq_true] at hfi ⊢
            obtain ⟨hsucc, hall⟩ := hfi
            refine ⟨by rw [show a + 1 + i' = a + (i' + 1) by omega]; exact hsucc, ?_⟩
            rw [List.all_eq_true] at hall ⊢
            intro j hj
            rw [List.mem_range] at hj
            have := hall (j + 1) (List.mem_range.mpr (by omega))
            rw [show a + 1 + j = a + (j + 1) by omega]
            exact this
      · replace hr : outcomeRetryable (r a) = false := by simpa using hr
        have hlhs : makeApiRequestAux r (fuel + 1) a = false := by
          simp [makeApiRequestAux, hs, hr]
        rw [hlhs]
        symm
        rw [List.any_eq_false]
        intro i hi
        rw [List.mem_range] at hi
        rcases Nat.eq_zero_or_pos i with h0 | hpos
        · subst h0
          simp [hs]
        · have hallf : ((List.range i).all fun j => outcomeRetryable (r (a + j))) = false := by
            rw [List.all_eq_false]
            exact ⟨0, List.mem_range.mpr hpos, by simpa using hr⟩
          simp [hallf]

theorem sendToDestination_eq (ident : String) (r : Nat → HttpOutcome) :
    sendToDestination ident r = destSucceeds200WithinBudget ident r := by
  cases hv : isValidCaltopoIdentifier ident with
  | true =>
    simp [sendToDestination, destSucceeds200WithinBudget, hv, makeApiRequest,
      makeApiRequestAux_eq_any]
  | false =>
    simp [sendToDestination, destSucceeds200WithinBudget, hv]

/-- C1 (amended): `send_position_update` returns `true` iff at least one
configured destination — connect_key endpoint or group endpoint —
succeeds, where a destination succeeds iff its identifier passes
validation and some attempt within the retry budget returns HTTP 200
with all earlier attempts retryable; in particular the result is
`false` when no destination is configured and `false` when every
configured destination exhausts its attempts or hits a fatal error.
(The code tests `status_code == 200` exactly, not the full 2xx class —
see the counterexample for the original claim.) -/
theorem report_success_characterization (hasConnectKey : Bool) (connectKey : String)
    (hasGroup : Bool) (groupId : String) (ckR gR : Nat → HttpOutcome) :
    sendPositionUpdate hasConnectKey connectKey hasGroup groupId ckR gR =
      ((hasConnectKey && destSucceeds200WithinBudget connectKey ckR) ||
       (hasGroup && destSucceeds200WithinBudget groupId gR)) := by
  cases hasConnectKey <;> cases hasGroup <;>
    simp [sendPositionUpdate, sendToDestination_eq]

/-- Counterexample to C1 as stated: a single configured destination
(valid connect key `k`) whose very first attempt returns HTTP 204 — a
2xx response, well within the retry budget — yet `send_position_update`
returns `false`, because the code accepts only status 200 and treats
every other non-5xx/429 status as fatal. -/
theorem report_2xx_counterexample :
    destSucceeds2xxWithinBudget "k" (fun _ => .status 204) = true ∧
    sendPositionUpdate true "k" false "" (fun _ => .status 204) (fun _ => .status 204) = false := by
  constructor
  · decide
  · decide

/-! ## C3 — deterministic stable-id derivation -/

theorem digitsAux_fuel_irrel (b : Nat) (hb : 2 ≤ b) :
    ∀ n f1 f2, n < f1 → n < f2 → digitsAux b f1 n = digitsAux b f2 n := by
  intro n
  induction n using Nat.strong_induction_on with
  | _ n ih =>
    intro f1 f2 h1 h2
    obtain ⟨f1', rfl⟩ : ∃ k, f1 = k + 1 := ⟨f1 - 1, by omega⟩
    obtain ⟨f2', rfl⟩ : ∃ k, f2 = k + 1 := ⟨f2 - 1, by omega⟩
    simp only [digitsAux]
    by_cases hn : n < b
    · simp [hn]
    · rw [if_neg hn, if_neg hn]
      have hpos : 0 < n := by omega
      have hdiv : n / b < n := Nat.div_lt_self hpos (by omega)
      rw [ih (n / b) hdiv f1' f2' (by omega) (by omega)]

theorem natDigits_eq (b : Nat) (hb : 2 ≤ b) (n : Nat) :
    natDigits b n = if n < b then [Nat.digitChar n]
      else natDigits b (n / b) ++ [Nat.digitChar (n % b)] := by
  have hstep : ∀ fuel m, digitsAux b (fuel + 1) m =
      if m < b then [Nat.digitChar m]
      else digitsAux b fuel (m / b) ++ [Nat.digitChar (m % b)] := fun _ _ => rfl
  show digitsAux b (n + 1) n = _
  rw [hstep]
  by_cases hn : n < b
  · rw [if_pos hn, if_pos hn]
  · rw [if_neg hn, if_neg hn]
    have hpos : 0 < n := by omega
    have hdiv : n / b < n := Nat.div_lt_self hpos (by omega)
    rw [digitsAux_fuel_irrel b hb (n / b) n (n / b + 1) (by omega) (by omega)]
    rfl

theorem digitCharVal_digitChar (d : Nat) (hd : d < 16) :
    digitCharVal (Nat.digitChar d) = d := by
  interval_cases d <;> decide

theorem foldl_digitVal (b : Nat) (hb2 : 2 ≤ b) (hb16 : b ≤ 16) (n : Nat) :
    (natDigits b n).foldl (fun a c => a * b + digitCharVal c) 0 = n := by
  induction n using Nat.strong_induction_on with
  | _ n ih =>
    rw [natDigits_eq b hb2 n]
    by_cases hn : n < b
    · rw [if_pos hn]
      simp only [List.foldl_cons, List.foldl_nil]
      rw [digitCharVal_digitChar n (by omega)]
      omega
    · rw [if_neg hn]
      have hpos : 0 < n := by omega
      have hdiv : n / b < n := Nat.div_lt_self hpos (by omega)
      have hmod : n % b < b := Nat.mod_lt n (by omega)
      rw [List.foldl_append, ih (n / b) hdiv]
      simp only [List.foldl_cons, List.foldl_nil]
      rw [digitCharVal_digitChar (n % b) (by omega), Nat.mul_comm]
      exact Nat.div_add_mod n b

theorem natDigits_length_le (b : Nat) (hb : 2 ≤ b) :
    ∀ k n, 1 ≤ k → n < b ^ k → (natDigits b n).length ≤ k := by
  intro k
  induction k with
  | zero => intro n h1 _; omega
  | succ k ihk =>
    intro n _ hn
    rw [natDigits_eq b hb n]
    by_cases hnb : n < b
    · rw [if_pos hnb]
      simp
    · rw [if_neg hnb, List.length_append]
      simp only [List.length_cons, List.length_nil]
      have hk1 : 1 ≤ k := by
        by_contra hk
        have : k = 0 := by omega
        subst this
        rw [pow_one] at hn
        omega
      have hdivlt : n / b < b ^ k := by
        rw [Nat.div_lt_iff_lt_mul (by omega)]
        calc n < b ^ (k + 1) := hn
          _ = b ^ k * b := by ring
      have := ihk (n / b) hk1 hdivlt
      omega

theorem hexPad8_length_ge (n : Nat) : 8 ≤ (hexPad8 n).length := by
  show 8 ≤ (List.replicate (8 - (hexDigits n).length) '0' ++ hexDigits n).length
  rw [List.length_append, List.length_replicate]
  omega

theorem hexPad8_length_eq (n : Nat) (h : n < 4294967296) : (hexPad8 n).length = 8 := by
  have hlen : (hexDigits n).length ≤ 8 := by
    have h16 : n < 16 ^ 8 := by norm_num at h ⊢; omega
    exact natDigits_length_le 16 (by omega) 8 n (by omega) h16
  show (List.replicate (8 - (hexDigits n).length) '0' ++ hexDigits n).length = 8
  rw [List.length_append, List.length_replicate]
  omega

theorem foldl_replicate_zeros (k : Nat) :
    (List.replicate k '0').foldl (fun a c => a * 16 + digitCharVal c) 0 = 0 := by
  induction k with
  | zero => rfl
  | succ k ih =>
    rw [List.replicate_succ, List.foldl_cons]
    have : (0 : Nat) * 16 + digitCharVal '0' = 0 := by decide
    rw [this]
    exact ih

theorem hexPad8_val (n : Nat) :
    (hexPad8 n).data.foldl (fun a c => a * 16 + digitCharVal c) 0 = n := by
  show (List.replicate (8 - (hexDigits n).length) '0' ++ hexDigits n).foldl
    (fun a c => a * 16 + digitCharVal c) 0 = n
  rw [List.foldl_append, foldl_replicate_zeros]
  exact foldl_digitVal 16 (by omega) (by omega) n

/-- C3 (amended): for a numeric sender id `n` (arriving as its decimal
string `s`) with no cached mapping, `_resolve_hardware_id` returns `'!'`
followed by the lowercase hexadecimal representation of `n` zero-padded
to a minimum width of 8 digits: the hex part always has at least 8
characters, has exactly 8 characters whenever `n < 2^32`, and reading it
back in base 16 recovers `n`. The derivation is a pure function of the
input (the embedding of `_resolve_hardware_id` takes only the cache and
the id and performs no writes), so repeated calls without an intervening
nodeinfo message agree. (For `n ≥ 2^32` the hex part is longer than 8
digits — see the counterexample for the original claim's "8-digit"
wording.) -/
theorem resolve_stable_id_uncached (cache : List (String × String)) (s : String) (n : Nat)
    (hparse : pyIntOfStr? s = some n) (hmiss : cache.lookup s = none) :
    resolveHardwareId cache s = "!" ++ hexPad8 n ∧
    8 ≤ (hexPad8 n).length ∧
    (n < 4294967296 → (hexPad8 n).length = 8) ∧
    (hexPad8 n).data.foldl (fun a c => a * 16 + digitCharVal c) 0 = n := by
  refine ⟨?_, hexPad8_length_ge n, fun h => hexPad8_length_eq n h, hexPad8_val n⟩
  simp [resolveHardwareId, hmiss, convertNumericToId, pyInt?, hparse]

/-- Counterexample to C3 as stated: the claim's "8-digit zero-padded
hexadecimal representation" requires a result of length 9 (`'!'` plus
exactly 8 hex digits) for every numeric sender id, but sender ids are
`uint64` per the spec's external-interface section, and for
`n = 2^32 = 4294967296` (no prior mapping) the code returns
`!100000000` — 9 hex digits, total length 10. Python's `%08x` format
pads to a minimum of 8 digits, it does not truncate. -/
theorem resolve_stable_id_counterexample :
    resolveHardwareId [] "4294967296" = "!100000000" ∧
    ¬(resolveHardwareId [] "4294967296").length = 9 := by
  constructor
  · decide
  · decide

/-- Witness for C3 (amended), the spec's Scenario A: numeric id
`24896776` with no prior mapping resolves to `!017be508`. -/
theorem resolve_stable_id_uncached_witness :
    resolveHardwareId [] "24896776" = "!" ++ hexPad8 24896776 ∧
    "!" ++ hexPad8 24896776 = "!017be508" ∧
    (hexPad8 24896776).length = 8 :=
  ⟨(resolve_stable_id_uncached [] "24896776" 24896776 (by decide) rfl).1,
   by decide,
   (resolve_stable_id_uncached [] "24896776" 24896776 (by decide) rfl).2.2.1 (by decide)⟩

/-! ## C2 — unknown-device policy drop -/

/-- C2 (amended): a position message from a device whose stable id is
not statically configured, not in the learned cache, and with
`allow_unknown_devices = false`, is dropped without any reporter call;
the `errors` counter, `position_updates_sent`, both caches and both
durable-store tables are unchanged; `messages_received` and — because
`_process_message` counts every dispatched message —
`messages_processed` are each incremented by one. -/
theorem unknown_device_policy_drop (cfg : GatewayConfig) (r : Bool) (st : AppState)
    (msg : RawMessage) (v : PyVal) (p : Payload) (latI lngI : Int)
    (hfrom : msg.fromField = some v) (htruthy : pyTruthy v = true)
    (htype : msg.typeField = some "position")
    (hret : msg.mqttRetain = false) (hpay : msg.payload = some p)
    (hlat : p.latitude_i = some latI) (hlng : p.longitude_i = some lngI)
    (hnodev : truthyStr (getNodeDeviceId cfg.nodes
        (resolveHardwareId st.nodeIdCache (pyStr v))) = none)
    (hnocache : truthyStr (st.callsignCache.lookup
        (resolveHardwareId st.nodeIdCache (pyStr v))) = none)
    (_hunknown : (configuredDevices cfg).contains
        (resolveHardwareId st.nodeIdCache (pyStr v)) = false)
    (hblock : cfg.allowUnknownDevices = false) :
    processMessage cfg r st msg = (bumpProcessed (bumpReceived st), [], some .position) ∧
    (bumpProcessed (bumpReceived st)).stats.errors = st.stats.errors ∧
    (bumpProcessed (bumpReceived st)).stats.positionUpdatesSent = st.stats.positionUpdatesSent ∧
    (bumpProcessed (bumpReceived st)).stats.messagesProcessed = st.stats.messagesProcessed + 1 ∧
    (bumpProcessed (bumpReceived st)).stats.messagesReceived = st.stats.messagesReceived + 1 ∧
    (bumpProcessed (bumpReceived st)).nodeIdCache = st.nodeIdCache ∧
    (bumpProcessed (bumpReceived st)).callsignCache = st.callsignCache ∧
    (bumpProcessed (bumpReceived st)).nodeIdMapping = st.nodeIdMapping ∧
    (bumpProcessed (bumpReceived st)).callsignMapping = st.callsignMapping := by
  refine ⟨?_, rfl, rfl, rfl, rfl, rfl, rfl, rfl, rfl⟩
  have hcall : getOrCreateCallsign cfg st.callsignCache
      (resolveHardwareId st.nodeIdCache (pyStr v)) = none := by
    simp [getOrCreateCallsign, hnodev, hnocache, hblock]
  have hpos : processPositionMessage cfg r (bumpReceived st) msg v = (bumpReceived st, []) := by
    simp [processPositionMessage, hret, hpay, hlat, hlng, bumpReceived, hcall, truthyStr]
  simp [processMessage, hfrom, htruthy, htype, hpos]

/-- Counterexample to C2 as stated: for an unknown device with
`allow_unknown_devices = false` (empty node table, empty caches), the
position message from sender 5 *is* dropped without a reporter call and
without touching `errors` — but `messages_processed` is incremented,
because `_process_message` increments it after every dispatched
handler, including policy drops. The claim asserted it stays
unchanged. -/
theorem unknown_device_processed_counterexample :
    (processMessage cfgBlockUnknown true freshState posMsg5).1.stats.messagesProcessed =
      freshState.stats.messagesProcessed + 1 ∧
    (processMessage cfgBlockUnknown true freshState posMsg5).1.stats.errors =
      freshState.stats.errors ∧
    (processMessage cfgBlockUnknown true freshState posMsg5).2.1 = [] := by
  refine ⟨?_, ?_, ?_⟩ <;> decide

/-- Witness for C2 (amended) at the concrete blocked scenario. -/
theorem unknown_device_policy_drop_witness :
    processMessage cfgBlockUnknown true freshState posMsg5 =
      (bumpProcessed (bumpReceived freshState), [], some .position) ∧
    (bumpProcessed (bumpReceived freshState)).stats.errors = freshState.stats.errors :=
  ⟨(unknown_device_policy_drop cfgBlockUnknown true freshState posMsg5
      (.num 5) ⟨some 612188460, some (-1499001320), none, none, none⟩ 612188460 (-1499001320)
      rfl (by decide) rfl rfl rfl rfl rfl (by decide) (by decide) (by decide) (by decide)).1,
   (unknown_device_policy_drop cfgBlockUnknown true freshState posMsg5
      (.num 5) ⟨some 612188460, some (-1499001320), none, none, none⟩ 612188460 (-1499001320)
      rfl (by decide) rfl rfl rfl rfl rfl (by decide) (by decide) (by decide) (by decide)).2.1⟩

/-! ## C5 — authorization-gated persistence of provisional mappings -/

theorem persistCallsign_nodeIdCache (s : AppState) (k c : String) :
    (persistCallsignMapping s k c).nodeIdCache = s.nodeIdCache := by
  unfold persistCallsignMapping
  split <;> rfl

theorem persistCallsign_nodeIdMapping (s : AppState) (k c : String) :
    (persistCallsignMapping s k c).nodeIdMapping = s.nodeIdMapping := by
  unfold persistCallsignMapping
  split <;> rfl

/-- C5: resolution itself never persists — `_resolve_hardware_id` is a
pure function of the cache and the id (its embedding performs no state
update at all), and for a position message whose sender has no cached
mapping (a provisional id):
(1) if label resolution fails, the position handler leaves the node-id
cache, the durable node-id table and the write counter untouched;
(2) if label resolution succeeds, the handler persists the provisional
mapping (one durable write, and both cache and table then map the
sender to the computed id);
(3) the nodeinfo handler persists the sender-to-stable-id mapping
regardless of any label source (no hypothesis about configuration,
cache, longname or shortname is needed). -/
theorem provisional_mapping_authorization_gated (cfg : GatewayConfig) (r : Bool)
    (st : AppState) (msg : RawMessage) (v : PyVal) (p : Payload) (latI lngI : Int)
    (hret : msg.mqttRetain = false) (hpay : msg.payload = some p)
    (hlat : p.latitude_i = some latI) (hlng : p.longitude_i = some lngI)
    (hnew : st.nodeIdCache.lookup (pyStr v) = none) :
    (truthyStr (getOrCreateCallsign cfg st.callsignCache
        (resolveHardwareId st.nodeIdCache (pyStr v))) = none →
      (processPositionMessage cfg r st msg v).1.nodeIdCache = st.nodeIdCache ∧
      (processPositionMessage cfg r st msg v).1.nodeIdMapping = st.nodeIdMapping ∧
      (processPositionMessage cfg r st msg v).1.nodeIdWrites = st.nodeIdWrites) ∧
    (∀ c, truthyStr (getOrCreateCallsign cfg st.callsignCache
        (resolveHardwareId st.nodeIdCache (pyStr v))) = some c →
      (processPositionMessage cfg r st msg v).1.nodeIdCache.lookup (pyStr v) =
        some (resolveHardwareId st.nodeIdCache (pyStr v)) ∧
      (processPositionMessage cfg r st msg v).1.nodeIdMapping.lookup (pyStr v) =
        some (resolveHardwareId st.nodeIdCache (pyStr v)) ∧
      (processPositionMessage cfg r st msg v).1.nodeIdWrites = st.nodeIdWrites + 1) ∧
    (∀ nid, truthyStr p.id = some nid →
      (processNodeinfoMessage cfg st msg v).nodeIdCache.lookup (pyStr v) = some nid ∧
      (processNodeinfoMessage cfg st msg v).nodeIdMapping.lookup (pyStr v) = some nid) := by
  refine ⟨?_, ?_, ?_⟩
  · intro hc
    simp [processPositionMessage, hret, hpay, hlat, hlng, hc]
  · intro c hc
    have hguard : (st.nodeIdCache.lookup (pyStr v) ==
        some (resolveHardwareId st.nodeIdCache (pyStr v))) = false := by
      rw [hnew]
      rfl
    cases r <;>
      simp [processPositionMessage, hret, hpay, hlat, hlng, hc, hnew,
        persistNodeIdMapping, hguard, lookup_dictInsert_self]
  · intro nid hnid
    have hguard : (st.nodeIdCache.lookup (pyStr v) == some nid) = false := by
      rw [hnew]
      rfl
    have h1c : (persistNodeIdMapping st (pyStr v) nid).nodeIdCache.lookup (pyStr v) =
        some nid := by
      simp [persistNodeIdMapping, hguard, lookup_dictInsert_self]
    have h1m : (persistNodeIdMapping st (pyStr v) nid).nodeIdMapping.lookup (pyStr v) =
        some nid := by
      simp [persistNodeIdMapping, hguard, lookup_dictInsert_self]
    simp only [processNodeinfoMessage, hpay, hnid]
    rcases htr : truthyStr (getNodeDeviceId cfg.nodes nid) with _ | d <;>
      rcases hln : truthyStr p.longname with _ | ln <;>
        rcases hsn : truthyStr p.shortname with _ | sn <;>
          simp [htr, hln, hsn, persistCallsign_nodeIdCache, persistCallsign_nodeIdMapping,
            h1c, h1m]

/-- Witness for C5: both position-handler cases at concrete inputs —
sender 5 blocked (nothing persisted) under `cfgBlockUnknown`, sender 5
allowed (mapping persisted) under `cfgAllowUnknown` — and the nodeinfo
handler persisting `5 -> !00000005` with no label hypothesis. -/
theorem provisional_mapping_authorization_gated_witness :
    ((processPositionMessage cfgBlockUnknown true freshState posMsg5 (.num 5)).1.nodeIdMapping =
      freshState.nodeIdMapping ∧
     (processPositionMessage cfgBlockUnknown true freshState posMsg5 (.num 5)).1.nodeIdWrites =
      freshState.nodeIdWrites) ∧
    ((processPositionMessage cfgAllowUnknown true freshState posMsg5 (.num 5)).1.nodeIdMapping.lookup
        (pyStr (.num 5)) = some (resolveHardwareId freshState.nodeIdCache (pyStr (.num 5))) ∧
     (processPositionMessage cfgAllowUnknown true freshState posMsg5 (.num 5)).1.nodeIdWrites =
      freshState.nodeIdWrites + 1) ∧
    (processNodeinfoMessage cfgBlockUnknown freshState fullMsg5 (.num 5)).nodeIdMapping.lookup
      (pyStr (.num 5)) = some "!00000005" := by
  have hblocked := (provisional_mapping_authorization_gated cfgBlockUnknown true freshState
    posMsg5 (.num 5) ⟨some 612188460, some (-1499001320), none, none, none⟩
    612188460 (-1499001320) rfl rfl rfl rfl (by decide)).1 (by decide)
  have hallowed := (provisional_mapping_authorization_gated cfgAllowUnknown true freshState
    posMsg5 (.num 5) ⟨some 612188460, some (-1499001320), none, none, none⟩
    612188460 (-1499001320) rfl rfl rfl rfl (by decide)).2.1 "!00000005" (by decide)
  have hnodeinfo := (provisional_mapping_authorization_gated cfgBlockUnknown true freshState
    fullMsg5 (.num 5) ⟨some 612188460, some (-1499001320), some "!00000005", some "Alice", none⟩
    612188460 (-1499001320) rfl rfl rfl rfl (by decide)).2.2 "!00000005" (by decide)
  exact ⟨⟨hblocked.2.1, hblocked.2.2⟩, ⟨hallowed.1, hallowed.2.2⟩, hnodeinfo.2⟩

/-! ## C8 — durable store round trip: string escaping -/

theorem skipWs_cons_of_not_ws (c : Char) (cs : List Char) (h : isWsChar c = false) :
    skipWs (c :: cs) = c :: cs := by
  simp [skipWs, h]

theorem skipWs_cons_of_ws (c : Char) (cs : List Char) (h : isWsChar c = true) :
    skipWs (c :: cs) = skipWs cs := by
  simp [skipWs, h]

set_option maxHeartbeats 1000000 in
theorem escapeChar_length_pos (c : Char) : 1 ≤ (escapeChar c).length := by
  unfold escapeChar
  split_ifs <;> simp [hex4]

theorem escString_length (s : List Char) : s.length ≤ (escString s).length := by
  induction s with
  | nil => simp [escString]
  | cons c cs ih =>
    simp only [escString, List.length_append, List.length_cons]
    have := escapeChar_length_pos c
    omega

theorem hexVal?_digitChar (d : Nat) (h : d < 16) : hexVal? (Nat.digitChar d) = some d := by
  interval_cases d <;> decide

theorem parseHex4_hex4 (n : Nat) (h : n < 65536) (rest : List Char) :
    parseHex4 (hex4 n ++ rest) = some (n, rest) := by
  have h1 : n / 4096 % 16 < 16 := Nat.mod_lt _ (by omega)
  have h2 : n / 256 % 16 < 16 := Nat.mod_lt _ (by omega)
  have h3 : n / 16 % 16 < 16 := Nat.mod_lt _ (by omega)
  have h4 : n % 16 < 16 := Nat.mod_lt _ (by omega)
  simp only [hex4, List.cons_append, List.nil_append, parseHex4]
  rw [hexVal?_digitChar _ h1, hexVal?_digitChar _ h2, hexVal?_digitChar _ h3,
    hexVal?_digitChar _ h4]
  have hval : ((n / 4096 % 16 * 16 + n / 256 % 16) * 16 + n / 16 % 16) * 16 + n % 16 = n := by
    omega
  simp [hval]

theorem psb_u_step (f : Nat) (rest : List Char) :
    parseStringBody (f + 1) ('\\' :: 'u' :: rest) =
      (match parseHex4 rest with
       | none => none
       | some (u, rest2) =>
         if decide (55296 ≤ u) && decide (u ≤ 56319) then
           match rest2 with
           | '\\' :: 'u' :: rest3 =>
             match parseHex4 rest3 with
             | none => none
             | some (l, rest4) =>
               if decide (56320 ≤ l) && decide (l ≤ 57343) then
                 consFst (Char.ofNat (65536 + (u - 55296) * 1024 + (l - 56320)))
                   (parseStringBody f rest4)
               else none
           | _ => none
         else if decide (56320 ≤ u) && decide (u ≤ 57343) then none
         else consFst (Char.ofNat u) (parseStringBody f rest2)) := rfl

theorem psb_lit (f : Nat) (c : Char) (rest : List Char) (h1 : (c == '"') = false)
    (h2 : (c == '\\') = false) (h3 : decide (c.toNat < 32) = false) :
    parseStringBody (f + 1) (c :: rest) = consFst c (parseStringBody f rest) := by
  simp [parseStringBody, h1, h2, h3]

/-- One escaped character parses back to itself, whatever follows. -/
theorem escapeChar_step (f : Nat) (c : Char) (Y : List Char) :
    parseStringBody (f + 1) (escapeChar c ++ Y) = consFst c (parseStringBody f Y) := by
  by_cases hq : c = '"'
  · subst hq; rfl
  by_cases hbs : c = '\\'
  · subst hbs; rfl
  by_cases h8 : c = Char.ofNat 8
  · subst h8; rfl
  by_cases h9 : c = Char.ofNat 9
  · subst h9; rfl
  by_cases h10 : c = Char.ofNat 10
  · subst h10; rfl
  by_cases h12 : c = Char.ofNat 12
  · subst h12; rfl
  by_cases h13 : c = Char.ofNat 13
  · subst h13; rfl
  have hq' : (c == '"') = false := by simp [hq]
  have hbs' : (c == '\\') = false := by simp [hbs]
  have h8' : (c == Char.ofNat 8) = false := by simp [h8]
  have h9' : (c == Char.ofNat 9) = false := by simp [h9]
  have h10' : (c == Char.ofNat 10) = false := by simp [h10]
  have h12' : (c == Char.ofNat 12) = false := by simp [h12]
  have h13' : (c == Char.ofNat 13) = false := by simp [h13]
  have hvalid : c.toNat < 55296 ∨ (57343 < c.toNat ∧ c.toNat < 1114112) := c.valid
  by_cases hc32 : c.toNat < 32
  · have hesc : escapeChar c = '\\' :: 'u' :: hex4 c.toNat := by
      simp [escapeChar, hq', hbs', h8', h9', h10', h12', h13', hc32]
    rw [hesc, List.cons_append, List.cons_append, psb_u_step,
      parseHex4_hex4 c.toNat (by omega) Y]
    have hs1 : (decide (55296 ≤ c.toNat) && decide (c.toNat ≤ 56319)) = false := by
      simp only [Bool.and_eq_false_iff, decide_eq_false_iff_not]
      left; omega
    have hs2 : (decide (56320 ≤ c.toNat) && decide (c.toNat ≤ 57343)) = false := by
      simp only [Bool.and_eq_false_iff, decide_eq_false_iff_not]
      left; omega
    simp [hs1, hs2, Char.ofNat_toNat]
  by_cases hc126 : c.toNat ≤ 126
  · have hesc : escapeChar c = [c] := by
      simp [escapeChar, hq', hbs', h8', h9', h10', h12', h13', hc32, hc126]
    rw [hesc, List.cons_append, List.nil_append]
    exact psb_lit f c Y hq' hbs' (by simp [hc32])
  by_cases hbmp : c.toNat ≤ 65535
  · have hesc : escapeChar c = '\\' :: 'u' :: hex4 c.toNat := by
      simp [escapeChar, hq', hbs', h8', h9', h10', h12', h13', hc32, hc126, hbmp]
    rw [hesc, List.cons_append, List.cons_append, psb_u_step,
      parseHex4_hex4 c.toNat (by omega) Y]
    have hs1 : (decide (55296 ≤ c.toNat) && decide (c.toNat ≤ 56319)) = false := by
      simp only [Bool.and_eq_false_iff, decide_eq_false_iff_not]
      omega
    have hs2 : (decide (56320 ≤ c.toNat) && decide (c.toNat ≤ 57343)) = false := by
      simp only [Bool.and_eq_false_iff, decide_eq_false_iff_not]
      omega
    simp [hs1, hs2, Char.ofNat_toNat]
  · have hesc : escapeChar c =
        ('\\' :: 'u' :: hex4 (55296 + (c.toNat - 65536) / 1024)) ++
        ('\\' :: 'u' :: hex4 (56320 + (c.toNat - 65536) % 1024)) := by
      simp [escapeChar, hq', hbs', h8', h9', h10', h12', h13', hc32, hc126, hbmp]
    have hrange : 65536 ≤ c.toNat ∧ c.toNat < 1114112 := by omega
    have hhi : 55296 + (c.toNat - 65536) / 1024 < 65536 := by omega
    have hlo : 56320 + (c.toNat - 65536) % 1024 < 65536 := by omega
    rw [hesc]
    rw [show (('\\' :: 'u' :: hex4 (55296 + (c.toNat - 65536) / 1024)) ++
        ('\\' :: 'u' :: hex4 (56320 + (c.toNat - 65536) % 1024))) ++ Y =
        '\\' :: 'u' :: (hex4 (55296 + (c.toNat - 65536) / 1024) ++
          ('\\' :: 'u' :: (hex4 (56320 + (c.toNat - 65536) % 1024) ++ Y))) by
      simp [List.append_assoc]]
    rw [psb_u_step, parseHex4_hex4 _ hhi]
    have hs1 : (decide (55296 ≤ 55296 + (c.toNat - 65536) / 1024) &&
        decide (55296 + (c.toNat - 65536) / 1024 ≤ 56319)) = true := by
      simp only [Bool.and_eq_true, decide_eq_true_eq]
      omega
    simp only [hs1, if_true]
    rw [parseHex4_hex4 _ hlo]
    have hs2 : (decide (56320 ≤ 56320 + (c.toNat - 65536) % 1024) &&
        decide (56320 + (c.toNat - 65536) % 1024 ≤ 57343)) = true := by
      simp only [Bool.and_eq_true, decide_eq_true_eq]
      omega
    simp only [hs2, if_true]
    have hcomb : 65536 + (55296 + (c.toNat - 65536) / 1024 - 55296) * 1024 +
        (56320 + (c.toNat - 65536) % 1024 - 56320) = c.toNat := by
      omega
    rw [hcomb, Char.ofNat_toNat]

/-- The serialized body of a string parses back to the string. -/
theorem parseStringBody_escString (s : List Char) :
    ∀ fuel rest, s.length + 1 ≤ fuel →
      parseStringBody fuel (escString s ++ '"' :: rest) = some (s, rest) := by
  induction s with
  | nil =>
    intro fuel rest hf
    obtain ⟨f, rfl⟩ : ∃ f, fuel = f + 1 := ⟨fuel - 1, by omega⟩
    simp [escString, parseStringBody]
  | cons c cs ih =>
    intro fuel rest hf
    obtain ⟨f, rfl⟩ : ∃ f, fuel = f + 1 := ⟨fuel - 1, by omega⟩
    have hf' : cs.length + 1 ≤ f := by
      simp only [List.length_cons] at hf
      omega
    simp only [escString, List.append_assoc]
    rw [escapeChar_step f c (escString cs ++ '"' :: rest), ih f rest hf']
    rfl

/-! ## C8 — durable store round trip: numbers and token heads -/

theorem isDigitChar_digitChar (d : Nat) (h : d < 10) :
    isDigitChar (Nat.digitChar d) = true := by
  interval_cases d <;> decide

theorem natDigits10_all_digits (n : Nat) :
    ∀ c ∈ natDigits 10 n, isDigitChar c = true := by
  induction n using Nat.strong_induction_on with
  | _ n ih =>
    rw [natDigits_eq 10 (by omega) n]
    by_cases hn : n < 10
    · rw [if_pos hn]
      intro c hc
      simp only [List.mem_singleton] at hc
      subst hc
      exact isDigitChar_digitChar n hn
    · rw [if_neg hn]
      intro c hc
      rw [List.mem_append] at hc
      rcases hc with hc | hc
      · exact ih (n / 10) (Nat.div_lt_self (by omega) (by omega)) c hc
      · simp only [List.mem_singleton] at hc
        subst hc
        exact isDigitChar_digitChar (n % 10) (Nat.mod_lt _ (by omega))

theorem natDigits_ne_nil (b n : Nat) (hb : 2 ≤ b) : natDigits b n ≠ [] := by
  rw [natDigits_eq b hb n]
  by_cases hn : n < b
  · simp [hn]
  · simp [hn]

theorem natDigits10_head_digit (n : Nat) :
    ∃ d t, d < 10 ∧ natDigits 10 n = Nat.digitChar d :: t := by
  induction n using Nat.strong_induction_on with
  | _ n ih =>
    by_cases hn : n < 10
    · exact ⟨n, [], hn, by rw [natDigits_eq 10 (by omega) n, if_pos hn]⟩
    · obtain ⟨d, t, hd, ht⟩ := ih (n / 10) (Nat.div_lt_self (by omega) (by omega))
      refine ⟨d, t ++ [Nat.digitChar (n % 10)], hd, ?_⟩
      rw [natDigits_eq 10 (by omega) n, if_neg hn, ht]
      rfl

theorem natDigits10_head_ne_zero : ∀ n, 1 ≤ n → (natDigits 10 n).head? ≠ some '0' := by
  intro n
  induction n using Nat.strong_induction_on with
  | _ n ih =>
    intro h
    rw [natDigits_eq 10 (by omega) n]
    by_cases hn : n < 10
    · rw [if_pos hn]
      simp only [List.head?_cons, ne_eq, Option.some.injEq]
      interval_cases n <;> decide
    · rw [if_neg hn, List.head?_append]
      have hne := natDigits_ne_nil 10 (n / 10) (by omega)
      cases hd : (natDigits 10 (n / 10)).head? with
      | none =>
        rw [List.head?_eq_none_iff] at hd
        exact absurd hd hne
      | some a =>
        have hih := ih (n / 10) (Nat.div_lt_self (by omega) (by omega)) (by omega)
        rw [hd] at hih
        simpa using hih

theorem digitsVal_natDigits (n : Nat) : digitsVal (natDigits 10 n) = n := by
  unfold digitsVal
  have hext := List.foldl_ext (fun (a : Nat) (c : Char) => a * 10 + (c.toNat - '0'.toNat))
    (fun (a : Nat) (c : Char) => a * 10 + digitCharVal c) 0
    (fun a c hc => by
      have hd := natDigits10_all_digits n c hc
      simp only [isDigitChar, Bool.and_eq_true] at hd
      have hv : digitCharVal c = c.toNat - '0'.toNat := by
        unfold digitCharVal
        rw [if_pos hd.2]
      show a * 10 + (c.toNat - '0'.toNat) = a * 10 + digitCharVal c
      rw [hv])
  rw [hext]
  exact foldl_digitVal 10 (by omega) (by omega) n

theorem numBoundary_head_not_digit (c : Char) (cs : List Char)
    (h : numBoundary (c :: cs) = true) :
    isDigitChar c = false ∧ (c == '.') = false ∧ (c == 'e') = false ∧ (c == 'E') = false := by
  simp only [numBoundary, Bool.not_eq_true', Bool.or_eq_false_iff] at h
  exact ⟨h.1.1.1, h.1.1.2, h.1.2, h.2⟩

theorem spanDigits_append (ds rest : List Char) (hds : ∀ c ∈ ds, isDigitChar c = true)
    (hrest : numBoundary rest = true) :
    spanDigits (ds ++ rest) = (ds, rest) := by
  induction ds with
  | nil =>
    simp only [List.nil_append]
    cases rest with
    | nil => rfl
    | cons c cs =>
      have hc := (numBoundary_head_not_digit c cs hrest).1
      simp [spanDigits, hc]
  | cons d ds ih =>
    have hd := hds d (by simp)
    simp only [List.cons_append, spanDigits, hd, if_true, List.append_eq]
    rw [ih (fun c hc => hds c (by simp [hc]))]

theorem parseIntToken_natDigits (n : Nat) (rest : List Char)
    (hrest : numBoundary rest = true) :
    parseIntToken (natDigits 10 n ++ rest) = some (n, rest) := by
  unfold parseIntToken
  rw [spanDigits_append _ _ (natDigits10_all_digits n) hrest]
  obtain ⟨d, t, hdt⟩ : ∃ d t, natDigits 10 n = d :: t := by
    cases h : natDigits 10 n with
    | nil => exact absurd h (natDigits_ne_nil 10 n (by omega))
    | cons d t => exact ⟨d, t, rfl⟩
  rw [hdt]
  have hlz : (decide (1 < (d :: t).length) && ((d :: t).head? == some '0')) = false := by
    cases t with
    | nil => simp
    | cons e es =>
      have hn10 : ¬n < 10 := by
        intro hn
        rw [natDigits_eq 10 (by omega) n, if_pos hn] at hdt
        simp at hdt
      have hhz := natDigits10_head_ne_zero n (by omega)
      rw [hdt] at hhz
      simp only [List.head?_cons, ne_eq, Option.some.injEq] at hhz
      simp [hhz]
  simp only [hlz, Bool.false_eq_true, if_false]
  cases rest with
  | nil =>
    rw [← hdt, digitsVal_natDigits]
  | cons c cs =>
    obtain ⟨_, h1, h2, h3⟩ := numBoundary_head_not_digit c cs hrest
    simp only [h1, h2, h3, Bool.or_self, Bool.or_false, Bool.false_eq_true, if_false]
    rw [← hdt, digitsVal_natDigits]

theorem digitChar_head_facts (d : Nat) (h : d < 10) :
    isWsChar (Nat.digitChar d) = false ∧
    ((Nat.digitChar d) == 'n') = false ∧
    ((Nat.digitChar d) == 't') = false ∧
    ((Nat.digitChar d) == 'f') = false ∧
    ((Nat.digitChar d) == '"') = false ∧
    ((Nat.digitChar d) == '[') = false ∧
    ((Nat.digitChar d) == lbrace) = false ∧
    ((Nat.digitChar d) == '-') = false ∧
    ((Nat.digitChar d) == ']') = false ∧
    ((Nat.digitChar d) == rbrace) = false := by
  interval_cases d <;> decide

theorem dumpJson_head (v : Json) :
    ∃ c t, dumpJson v = c :: t ∧ isWsChar c = false ∧
      (c == ']') = false ∧ (c == rbrace) = false := by
  cases v with
  | num i =>
    show ∃ c t, intChars i = c :: t ∧ _
    unfold intChars
    by_cases hi : i < 0
    · rw [if_pos hi]
      exact ⟨'-', decDigits i.natAbs, rfl, rfl, rfl, rfl⟩
    · rw [if_neg hi]
      obtain ⟨d, t, hd, ht⟩ := natDigits10_head_digit i.toNat
      obtain ⟨f1, _, _, _, _, _, _, _, f9, f10⟩ := digitChar_head_facts d hd
      exact ⟨Nat.digitChar d, t, ht, f1, f9, f10⟩
  | null => exact ⟨'n', _, rfl, rfl, rfl, rfl⟩
  | bool b =>
    cases b
    · exact ⟨'f', _, rfl, rfl, rfl, rfl⟩
    · exact ⟨'t', _, rfl, rfl, rfl, rfl⟩
  | str s => exact ⟨'"', _, rfl, rfl, rfl, rfl⟩
  | arr xs => exact ⟨'[', _, rfl, rfl, rfl, rfl⟩
  | obj fs => exact ⟨lbrace, _, rfl, rfl, rfl, rfl⟩

theorem skipWs_dump_append (v : Json) (rest : List Char) :
    skipWs (dumpJson v ++ rest) = dumpJson v ++ rest := by
  obtain ⟨c, t, hv, hws, _, _⟩ := dumpJson_head v
  rw [hv, List.cons_append, skipWs_cons_of_not_ws _ _ hws, ← List.cons_append, ← hv]

/-! ## C8 — durable store round trip: fuel bounds -/

theorem jsonFuel_pos (v : Json) : 1 ≤ jsonFuel v := by
  cases v <;> simp [jsonFuel]

mutual
theorem jsonFuel_le_dump (v : Json) : jsonFuel v ≤ (dumpJson v).length := by
  cases v with
  | null => decide
  | bool b => cases b <;> decide
  | num i =>
    show 1 ≤ (intChars i).length
    unfold intChars
    by_cases hi : i < 0
    · rw [if_pos hi]
      simp
    · rw [if_neg hi]
      cases h : natDigits 10 i.toNat with
      | nil => exact absurd h (natDigits_ne_nil 10 i.toNat (by omega))
      | cons d t =>
        show 1 ≤ (natDigits 10 i.toNat).length
        rw [h]
        simp
  | str s =>
    show 1 ≤ ('"' :: escString s.data ++ ['"']).length
    simp
  | arr xs =>
    show 1 + jsonArrFuel xs ≤ ('[' :: dumpArrBody xs).length
    cases xs with
    | nil => decide
    | cons x tl =>
      have hx := jsonFuel_le_dump x
      have htl := jsonArrFuel_le_tail tl
      show 1 + (1 + jsonFuel x + jsonArrFuel tl) ≤
        ('[' :: (dumpJson x ++ dumpArrTail tl)).length
      simp only [List.length_cons, List.length_append]
      omega
  | obj fs =>
    show 1 + jsonObjFuel fs ≤ (lbrace :: dumpObjBody fs).length
    cases fs with
    | nil => decide
    | cons k v tl =>
      have hv := jsonFuel_le_dump v
      have htl := jsonObjFuel_le_tail tl
      show 1 + (1 + jsonFuel v + jsonObjFuel tl) ≤
        (lbrace :: ('"' :: escString k.data ++
          '"' :: ':' :: ' ' :: (dumpJson v ++ dumpObjTail tl))).length
      simp only [List.length_cons, List.length_append]
      omega

theorem jsonArrFuel_le_tail (xs : JsonArr) : 1 + jsonArrFuel xs ≤ (dumpArrTail xs).length := by
  cases xs with
  | nil => decide
  | cons y tl =>
    have hy := jsonFuel_le_dump y
    have htl := jsonArrFuel_le_tail tl
    show 1 + (1 + jsonFuel y + jsonArrFuel tl) ≤
      (',' :: ' ' :: (dumpJson y ++ dumpArrTail tl)).length
    simp only [List.length_cons, List.length_append]
    omega

theorem jsonObjFuel_le_tail (fs : JsonObj) : 1 + jsonObjFuel fs ≤ (dumpObjTail fs).length := by
  cases fs with
  | nil => decide
  | cons k v tl =>
    have hv := jsonFuel_le_dump v
    have htl := jsonObjFuel_le_tail tl
    show 1 + (1 + jsonFuel v + jsonObjFuel tl) ≤
      (',' :: ' ' :: '"' :: escString k.data ++
        '"' :: ':' :: ' ' :: (dumpJson v ++ dumpObjTail tl)).length
    simp only [List.length_cons, List.length_append]
    omega
end

/-! ## C8 — durable store round trip: parser step equations -/

theorem parseJson_null_step (f : Nat) (rest : List Char) :
    parseJson (f + 1) ('n' :: 'u' :: 'l' :: 'l' :: rest) = some (.null, rest) := rfl

theorem parseJson_true_step (f : Nat) (rest : List Char) :
    parseJson (f + 1) ('t' :: 'r' :: 'u' :: 'e' :: rest) = some (.bool true, rest) := rfl

theorem parseJson_false_step (f : Nat) (rest : List Char) :
    parseJson (f + 1) ('f' :: 'a' :: 'l' :: 's' :: 'e' :: rest) = some (.bool false, rest) := rfl

theorem parseJson_str_step (f : Nat) (rest1 : List Char) :
    parseJson (f + 1) ('"' :: rest1) =
      (match parseStringBody (rest1.length + 1) rest1 with
       | some (s, r) => some (.str ⟨s⟩, r)
       | none => none) := rfl

theorem parseJson_arr_step (f : Nat) (rest1 : List Char) :
    parseJson (f + 1) ('[' :: rest1) =
      (match skipWs rest1 with
       | [] => none
       | c2 :: r2 =>
         if c2 == ']' then some (.arr .nil, r2)
         else
           match parseArrElems f (c2 :: r2) with
           | some (xs, r3) => some (.arr xs, r3)
           | none => none) := rfl

theorem parseJson_obj_step (f : Nat) (rest1 : List Char) :
    parseJson (f + 1) (lbrace :: rest1) =
      (match skipWs rest1 with
       | [] => none
       | c2 :: r2 =>
         if c2 == rbrace then some (.obj .nil, r2)
         else
           match parseObjElems f (c2 :: r2) with
           | some (fs, r3) => some (.obj fs, r3)
           | none => none) := rfl

theorem parseJson_neg_step (f : Nat) (rest1 : List Char) :
    parseJson (f + 1) ('-' :: rest1) =
      (match parseIntToken rest1 with
       | some (n, r) => some (.num (-(n : Int)), r)
       | none => none) := rfl

theorem parseJson_digit_step (f : Nat) (c : Char) (rest : List Char)
    (hws : isWsChar c = false)
    (h1 : (c == 'n') = false) (h2 : (c == 't') = false) (h3 : (c == 'f') = false)
    (h4 : (c == '"') = false) (h5 : (c == '[') = false) (h6 : (c == lbrace) = false)
    (h7 : (c == '-') = false) (h8 : isDigitChar c = true) :
    parseJson (f + 1) (c :: rest) =
      (match parseIntToken (c :: rest) with
       | some (n, r) => some (.num (n : Int), r)
       | none => none) := by
  simp only [parseJson]
  rw [skipWs_cons_of_not_ws _ _ hws]
  simp [h1, h2, h3, h4, h5, h6, h7, h8]

theorem parseArrElems_step (f : Nat) (cs : List Char) :
    parseArrElems (f + 1) cs =
      (match parseJson f cs with
       | none => none
       | some (v, rest) =>
         match skipWs rest with
         | [] => none
         | c :: r2 =>
           if c == ',' then
             match parseArrElems f r2 with
             | some (tl, r3) => some (.cons v tl, r3)
             | none => none
           else if c == ']' then some (.cons v .nil, r2)
           else none) := rfl

theorem parseObjElems_step (f : Nat) (cs : List Char) :
    parseObjElems ( f + 1) cs =
      (match skipWs cs with
       | [] => none
       | c :: rest =>
         if c == '"' then
           match parseStringBody (rest.length + 1) rest with
           | none => none
           | some (k, r1) =>
             match skipWs r1 with
             | [] => none
             | c2 :: r2 =>
               if c2 == ':' then
                 match parseJson f r2 with
                 | none => none
                 | some (v, r3) =>
                   match skipWs r3 with
                   | [] => none
                   | c3 :: r4 =>
                     if c3 == ',' then
                       match parseObjElems f r4 with
                       | some (tl, r5) => some (.cons ⟨k⟩ v tl, r5)
                       | none => none
                     else if c3 == rbrace then some (.cons ⟨k⟩ v .nil, r4)
                     else none
               else none
         else none) := rfl

/-! ## C8 — durable store round trip: parse of dump -/

mutual
theorem parseJson_dump (v : Json) : ∀ fuel cs rest, jsonFuel v ≤ fuel →
    skipWs cs = dumpJson v ++ rest → numBoundary rest = true →
    parseJson fuel cs = some (v, rest) := by
  intro fuel cs rest hfuel hskip hnb
  obtain ⟨f, rfl⟩ : ∃ f, fuel = f + 1 :=
    ⟨fuel - 1, by have := jsonFuel_pos v; omega⟩
  have hcongr : parseJson (f + 1) cs = parseJson (f + 1) (dumpJson v ++ rest) := by
    simp only [parseJson]
    rw [hskip, skipWs_dump_append]
  rw [hcongr]
  cases v with
  | null => exact parseJson_null_step f rest
  | bool b =>
    cases b with
    | true => exact parseJson_true_step f rest
    | false => exact parseJson_false_step f rest
  | num i =>
    by_cases hi : i < 0
    · have hdump : dumpJson (.num i) = '-' :: decDigits i.natAbs := by
        show intChars i = _
        unfold intChars
        rw [if_pos hi]
      rw [hdump, List.cons_append, parseJson_neg_step,
        show decDigits i.natAbs = natDigits 10 i.natAbs from rfl,
        parseIntToken_natDigits i.natAbs rest hnb]
      have hneg : -((i.natAbs : Nat) : Int) = i := by omega
      show some (Json.num (-((i.natAbs : Nat) : Int)), rest) = some (Json.num i, rest)
      rw [hneg]
    · have hdump : dumpJson (.num i) = natDigits 10 i.toNat := by
        show intChars i = _
        unfold intChars
        rw [if_neg hi]
        rfl
      obtain ⟨d, t, hd, ht⟩ := natDigits10_head_digit i.toNat
      obtain ⟨f1, f2, f3, f4, f5, f6, f7, f8, _, _⟩ := digitChar_head_facts d hd
      have hdig := isDigitChar_digitChar d hd
      rw [hdump, ht, List.cons_append,
        parseJson_digit_step f _ _ f1 f2 f3 f4 f5 f6 f7 f8 hdig,
        show Nat.digitChar d :: (t ++ rest) = natDigits 10 i.toNat ++ rest by
          rw [ht]; rfl,
        parseIntToken_natDigits i.toNat rest hnb]
      have hpos : ((i.toNat : Nat) : Int) = i := by omega
      show some (Json.num ((i.toNat : Nat) : Int), rest) = some (Json.num i, rest)
      rw [hpos]
  | str s =>
    have hshape : dumpJson (.str s) ++ rest = '"' :: (escString s.data ++ '"' :: rest) := by
      show ('"' :: escString s.data ++ ['"']) ++ rest = _
      simp [List.append_assoc]
    rw [hshape, parseJson_str_step,
      parseStringBody_escString s.data _ rest (by
        have h1 := escString_length s.data
        simp only [List.length_append, List.length_cons]
        omega)]
  | arr xs =>
    cases xs with
    | nil =>
      show parseJson (f + 1) ('[' :: (']' :: rest)) = _
      rw [parseJson_arr_step, skipWs_cons_of_not_ws ']' rest (by decide)]
      simp
    | cons x tl =>
      have hshape : dumpJson (.arr (.cons x tl)) ++ rest =
          '[' :: (dumpJson x ++ (dumpArrTail tl ++ rest)) := by
        show ('[' :: (dumpJson x ++ dumpArrTail tl)) ++ rest = _
        simp [List.append_assoc]
      rw [hshape, parseJson_arr_step, skipWs_dump_append x (dumpArrTail tl ++ rest)]
      obtain ⟨c, t, hx, hws, hbr, _⟩ := dumpJson_head x
      rw [hx, List.cons_append]
      have harr := parseArrElems_dump x tl f (c :: (t ++ (dumpArrTail tl ++ rest))) rest
        (by simp only [jsonFuel, jsonArrFuel] at hfuel; omega)
        (by rw [skipWs_cons_of_not_ws _ _ hws, ← List.cons_append, ← hx])
      simp [hbr, harr]
  | obj fs =>
    cases fs with
    | nil =>
      show parseJson (f + 1) (lbrace :: (rbrace :: rest)) = _
      rw [parseJson_obj_step, skipWs_cons_of_not_ws rbrace rest (by decide)]
      simp
    | cons k v tl =>
      have hshape : dumpJson (.obj (.cons k v tl)) ++ rest =
          lbrace :: ('"' :: (escString k.data ++
            '"' :: ':' :: ' ' :: (dumpJson v ++ (dumpObjTail tl ++ rest)))) := by
        show (lbrace :: ('"' :: escString k.data ++
          '"' :: ':' :: ' ' :: (dumpJson v ++ dumpObjTail tl))) ++ rest = _
        simp [List.append_assoc]
      rw [hshape, parseJson_obj_step,
        skipWs_cons_of_not_ws '"' _ (by decide)]
      have hobj := parseObjElems_dump k v tl f
        ('"' :: (escString k.data ++
          '"' :: ':' :: ' ' :: (dumpJson v ++ (dumpObjTail tl ++ rest)))) rest
        (by simp only [jsonFuel, jsonObjFuel] at hfuel; omega)
        (by rw [skipWs_cons_of_not_ws '"' _ (by decide)])
      simp [hobj, (by decide : (('"' : Char) == rbrace) = false)]
termination_by sizeOf v

theorem parseArrElems_dump (x : Json) (tl : JsonArr) : ∀ fuel cs rest,
    1 + jsonFuel x + jsonArrFuel tl ≤ fuel →
    skipWs cs = dumpJson x ++ (dumpArrTail tl ++ rest) →
    parseArrElems fuel cs = some (.cons x tl, rest) := by
  intro fuel cs rest hfuel hskip
  obtain ⟨f, rfl⟩ : ∃ f, fuel = f + 1 := ⟨fuel - 1, by omega⟩
  rw [parseArrElems_step]
  have hx := parseJson_dump x f cs (dumpArrTail tl ++ rest) (by omega) hskip
    (by cases tl <;> rfl)
  simp only [hx]
  cases tl with
  | nil =>
    rw [show dumpArrTail JsonArr.nil ++ rest = ']' :: rest from rfl,
      skipWs_cons_of_not_ws ']' rest (by decide)]
    simp
  | cons y tl' =>
    rw [show dumpArrTail (JsonArr.cons y tl') ++ rest =
        ',' :: ' ' :: (dumpJson y ++ (dumpArrTail tl' ++ rest)) from by
          simp [dumpArrTail, List.append_assoc],
      skipWs_cons_of_not_ws ',' _ (by decide)]
    have hrec := parseArrElems_dump y tl' f
      (' ' :: (dumpJson y ++ (dumpArrTail tl' ++ rest))) rest
      (by simp only [jsonArrFuel] at hfuel ⊢; omega)
      (by rw [skipWs_cons_of_ws ' ' _ (by decide), skipWs_dump_append])
    simp [hrec]
termination_by 1 + sizeOf x + sizeOf tl

theorem parseObjElems_dump (k : String) (v : Json) (tl : JsonObj) : ∀ fuel cs rest,
    1 + jsonFuel v + jsonObjFuel tl ≤ fuel →
    skipWs cs = '"' :: (escString k.data ++
      '"' :: ':' :: ' ' :: (dumpJson v ++ (dumpObjTail tl ++ rest))) →
    parseObjElems fuel cs = some (.cons k v tl, rest) := by
  intro fuel cs rest hfuel hskip
  obtain ⟨f, rfl⟩ : ∃ f, fuel = f + 1 := ⟨fuel - 1, by omega⟩
  rw [parseObjElems_step, hskip]
  have hkey : parseStringBody ((escString k.data ++
      '"' :: ':' :: ' ' :: (dumpJson v ++ (dumpObjTail tl ++ rest))).length + 1)
      (escString k.data ++ '"' :: ':' :: ' ' :: (dumpJson v ++ (dumpObjTail tl ++ rest))) =
      some (k.data, ':' :: ' ' :: (dumpJson v ++ (dumpObjTail tl ++ rest))) := by
    apply parseStringBody_escString
    have h1 := escString_length k.data
    simp only [List.length_append, List.length_cons]
    omega
  simp only [hkey]
  rw [skipWs_cons_of_not_ws ':' _ (by decide)]
  have hv := parseJson_dump v f (' ' :: (dumpJson v ++ (dumpObjTail tl ++ rest)))
    (dumpObjTail tl ++ rest)
    (by omega)
    (by rw [skipWs_cons_of_ws ' ' _ (by decide), skipWs_dump_append])
    (by cases tl <;> rfl)
  simp only [hv]
  cases tl with
  | nil =>
    rw [show dumpObjTail JsonObj.nil ++ rest = rbrace :: rest from rfl,
      skipWs_cons_of_not_ws rbrace rest (by decide)]
    simp [(by decide : (rbrace == ',') = false)]
  | cons k' v' tl' =>
    rw [show dumpObjTail (JsonObj.cons k' v' tl') ++ rest =
        ',' :: ' ' :: '"' :: (escString k'.data ++
          '"' :: ':' :: ' ' :: (dumpJson v' ++ (dumpObjTail tl' ++ rest))) from by
          simp [dumpObjTail, List.append_assoc],
      skipWs_cons_of_not_ws ',' _ (by decide)]
    have hrec := parseObjElems_dump k' v' tl' f
      (' ' :: '"' :: (escString k'.data ++
        '"' :: ':' :: ' ' :: (dumpJson v' ++ (dumpObjTail tl' ++ rest)))) rest
      (by simp only [jsonObjFuel] at hfuel ⊢; omega)
      (by rw [skipWs_cons_of_ws ' ' _ (by decide),
        skipWs_cons_of_not_ws '"' _ (by decide)])
    simp [hrec]
termination_by 1 + sizeOf v + sizeOf tl
end

/-! ## C8 — durable store round trip and corruption handling -/

theorem jsonLoads_jsonDumps (v : Json) : jsonLoads? (jsonDumps v) = some v := by
  unfold jsonLoads? jsonDumps
  have hparse := parseJson_dump v (2 * (dumpJson v).length + 2) (dumpJson v) []
    (by have := jsonFuel_le_dump v; omega)
    (by
      rw [List.append_nil]
      have h := skipWs_dump_append v []
      rwa [List.append_nil] at h)
    rfl
  rw [show (String.mk (dumpJson v)).data = dumpJson v from rfl, hparse]
  rfl

/-- C8: writing any (modelled) JSON value through
`PersistentDict.__setitem__` and reading the same key back through
`__getitem__` returns an equal value — the stored text is
`json.dumps(value)` and decoding it recovers the value exactly; and a
key whose stored text is not valid JSON (per the model's `jsonLoads?`)
raises `KeyError`, the very same failure as a missing key, never any
other crash. -/
theorem pdict_roundtrip_and_corrupt (table : List (String × String)) (key txt : String)
    (v : Json) :
    (∀ table2, pdictSet true table key v = .ok table2 →
      pdictGet true table2 key = .ok v) ∧
    (table.lookup key = some txt → jsonLoads? txt = none →
      pdictGet true table key = .error (.keyError key)) ∧
    (table.lookup key = none → pdictGet true table key = .error (.keyError key)) := by
  refine ⟨?_, ?_, ?_⟩
  · intro table2 hset
    simp only [pdictSet, Bool.not_true, Bool.false_eq_true, if_false, Except.ok.injEq] at hset
    subst hset
    simp [pdictGet, lookup_dictInsert_self, jsonLoads_jsonDumps]
  · intro hlook hbad
    simp [pdictGet, hlook, hbad]
  · intro hlook
    simp [pdictGet, hlook]

/-- Witness for C8: the sample value (strings with escapes and a
non-BMP character, integers of both signs, booleans, null, nested
array/object) survives a set-then-get round trip; a stored text that is
not JSON and a missing key both yield the identical `KeyError`. -/
theorem pdict_roundtrip_witness :
    pdictGet true (dictInsert "cs" (jsonDumps sampleJson) []) "cs" = .ok sampleJson ∧
    pdictGet true [("cs", "not json")] "cs" = .error (.keyError "cs") ∧
    pdictGet true [] "cs" = .error (.keyError "cs") :=
  ⟨(pdict_roundtrip_and_corrupt [] "cs" "not json" sampleJson).1 _ rfl,
   (pdict_roundtrip_and_corrupt [("cs", "not json")] "cs" "not json" sampleJson).2.1 rfl
     (by decide),
   (pdict_roundtrip_and_corrupt [] "cs" "not json" sampleJson).2.2 rfl⟩

end Meshtopo
